import Mathlib

/-!
Gameplay loop of `main.cpp`

A shallow embedding of the frame loop of `src/main.cpp`: `process_input`,
`update` (the fixed-timestep accumulator and the per-tick encounter tests),
`render` (the win/loss decision), `handle_enemy_collision`, `is_enemy_nearby`,
and the level data handed to the `Map` constructor.

Numbers are rationals: every `float` of the program is read as the exact
decimal written in the source.  Arithmetic is exact, except in
`is_enemy_nearby`, whose answer next to the threshold depends on the rounding:
there `glm::distance` is computed in binary32, one rounding per operation.

`Entity.h`, `Entity.cpp` and `Map.h` are not part of the sources at hand.  The
record types and the small accessors are modelled from the data model of the
specification; `Entity::update`, `Entity::check_collision` and
`Entity::normalise_movement` are parameters of the embedding (`EntityOps`),
each a function of the objects the call can reach that returns the new value
of its receiver.
-/

namespace Project4

/-! ## Constants of `main.cpp` -/

/-- `#define FIXED_TIMESTEP 0.0166666f`, as an exact decimal. -/
def FIXED_TIMESTEP : ℚ := 166666 / 10000000

/-- `#define ENEMY_COUNT 3`. -/
abbrev ENEMY_COUNT : Nat := 3

/-- `#define LEVEL1_WIDTH 14`. -/
def LEVEL1_WIDTH : Nat := 14

/-- `#define LEVEL1_HEIGHT 5`. -/
def LEVEL1_HEIGHT : Nat := 5

/-- `constexpr float MILLISECONDS_IN_SECOND = 1000.0`. -/
def MILLISECONDS_IN_SECOND : ℚ := 1000

/-- The rows of the initialiser of `LEVEL_1_DATA`, one list per source line
(lines 54-58 of `main.cpp`). -/
def LEVEL_1_ROWS : List (List Nat) :=
  [ [0, 0, 0, 0, 0, 0, 1, 1, 0, 0, 1, 1, 0, 0, 0],
    [0, 2, 3, 3, 2, 2, 3, 3, 2, 2, 3, 3, 2, 0, 1],
    [1, 2, 1, 1, 3, 3, 0, 0, 2, 1, 1, 3, 2, 1, 0],
    [2, 0, 1, 1, 3, 2, 1, 1, 2, 0, 0, 3, 3, 2, 1],
    [3, 2, 2, 3, 2, 2, 3, 3, 2, 2, 3, 3, 2, 2, 0] ]

/-- `unsigned int LEVEL_1_DATA[]`: the flat array the initialiser denotes. -/
def LEVEL_1_DATA : List Nat := LEVEL_1_ROWS.flatten

/-! ## Data model -/

/-- A `glm::vec3`. -/
structure Vec3 where
  x : ℚ
  y : ℚ
  z : ℚ
  deriving DecidableEq, Repr

/-! ## binary32 arithmetic -/

/-- Round to the nearest integer, a tie going to the even neighbour. -/
def round_half_even (x : ℚ) : ℤ :=
  if x - ⌊x⌋ < 1 / 2 then ⌊x⌋
  else if 1 / 2 < x - ⌊x⌋ then ⌊x⌋ + 1
  else if ⌊x⌋ % 2 = 0 then ⌊x⌋
  else ⌊x⌋ + 1

/-- The spacing of the binary32 values around `q`: `2 ^ (e - 23)` where `e` is
the binary exponent of `q`, and `2 ^ (-149)` throughout the subnormal range. -/
def f32_ulp (q : ℚ) : ℚ := 2 ^ (max (Int.log 2 |q|) (-126) - 23)

/-- The binary32 value a `float` operation returns when its exact result is
`q`: round to nearest, ties to even (IEEE 754 default), gradual underflow.
The exponent is not bounded above: where binary32 overflows to an infinity
the value here has magnitude at least `2 ^ 128`, and a comparison with a
finite threshold comes out the same. -/
def f32_round (q : ℚ) : ℚ := round_half_even (q / f32_ulp q) * f32_ulp q

/-- `sqrt` on `float`: the binary32 value nearest to the square root of `s`
(ties to even), found from the integer square root of `s` in units of the
result's spacing; `0` for `s = 0`. -/
def f32_sqrt (s : ℚ) : ℚ :=
  if s ≤ 0 then 0
  else
    let ulp : ℚ := 2 ^ (Int.log 2 s / 2 - 23)
    let m : ℕ := Nat.sqrt ⌊s / (ulp * ulp)⌋₊
    let mid : ℚ := (m + 1 / 2) * ulp
    if s < mid * mid then m * ulp
    else if mid * mid < s then (m + 1) * ulp
    else if m % 2 = 0 then m * ulp
    else (m + 1) * ulp

namespace Vec3

/-- `glm::vec3(0.0f)`. -/
def zero : Vec3 := ⟨0, 0, 0⟩

/-- Square of `glm::length`. -/
def length_sq (v : Vec3) : ℚ := v.x * v.x + v.y * v.y + v.z * v.z

/-- Square of `glm::distance`. -/
def distance_sq (a b : Vec3) : ℚ :=
  (a.x - b.x) * (a.x - b.x) + (a.y - b.y) * (a.y - b.y) + (a.z - b.z) * (a.z - b.z)

/-- `operator-` on `glm::vec3`, component by component in binary32. -/
def f32_sub (a b : Vec3) : Vec3 :=
  ⟨f32_round (a.x - b.x), f32_round (a.y - b.y), f32_round (a.z - b.z)⟩

/-- `glm::dot` on `glm::vec3` in binary32: `tmp = a * b` component by
component, then `tmp.x + tmp.y + tmp.z` from left to right, each product and
each sum rounded on its own (no fused multiply-add). -/
def f32_dot (a b : Vec3) : ℚ :=
  f32_round (f32_round (f32_round (a.x * b.x) + f32_round (a.y * b.y)) + f32_round (a.z * b.z))

/-- `glm::length(v)`: `sqrt(dot(v, v))` in binary32. -/
def f32_length (v : Vec3) : ℚ := f32_sqrt (f32_dot v v)

/-- `glm::distance(p0, p1)`: `length(p1 - p0)` in binary32. -/
def f32_distance (p0 p1 : Vec3) : ℚ := f32_length (f32_sub p1 p0)

end Vec3

/-- `enum EntityType` of `Entity.h`. -/
inductive EntityType
  | PLAYER
  | ENEMY
  deriving DecidableEq, Repr

/-- `enum AIType` of `Entity.h`; `NONE` stands for an entity built without one. -/
inductive AIType
  | NONE
  | SPINNER
  | VERTICAL_MOVER
  | JUMPER
  deriving DecidableEq, Repr

/-- `enum AIState` of `Entity.h`. -/
inductive AIState
  | IDLE
  | WALKING
  deriving DecidableEq, Repr

/-- Modelled from the spec: the `Entity` record of `Entity.h` (not among the
sources), with the simulation fields of the specification's data model.  The
render-only fields (texture, scale, animation table) are left out. -/
structure Entity where
  position : Vec3
  movement : Vec3
  velocity : Vec3
  acceleration : Vec3
  speed : ℚ
  jumping_power : ℚ
  width : ℚ
  height : ℚ
  collided_top : Bool
  collided_bottom : Bool
  collided_left : Bool
  collided_right : Bool
  entity_type : EntityType
  ai_type : AIType
  ai_state : AIState
  is_active : Bool
  deriving DecidableEq, Repr

/-- Modelled from the spec: the `Map` record of `Map.h` (not among the
sources): the arguments of the constructor call in `initialise`, except the
texture handle. -/
structure Map where
  width : Nat
  height : Nat
  level_data : List Nat
  tile_size : ℚ
  tile_count_x : Nat
  tile_count_y : Nat
  deriving DecidableEq, Repr

namespace Entity

/-- Modelled from the spec: `Entity::deactivate()`; clears the active flag and
nothing else. -/
def deactivate (e : Entity) : Entity := { e with is_active := false }

/-- Modelled from the spec: `Entity::set_position`. -/
def set_position (e : Entity) (p : Vec3) : Entity := { e with position := p }

/-- Modelled from the spec: `Entity::set_movement`. -/
def set_movement (e : Entity) (m : Vec3) : Entity := { e with movement := m }

/-- Modelled from the spec: `Entity::move_left()` sets `movement.x` to `-1`. -/
def move_left (e : Entity) : Entity := { e with movement := { e.movement with x := -1 } }

/-- Modelled from the spec: `Entity::move_right()` sets `movement.x` to `+1`. -/
def move_right (e : Entity) : Entity := { e with movement := { e.movement with x := 1 } }

/-- Modelled from the spec: `Entity::jump()` sets the vertical velocity to
`jumping_power` and clears `collided_bottom`. -/
def jump (e : Entity) : Entity :=
  { e with velocity := { e.velocity with y := e.jumping_power }, collided_bottom := false }

end Entity

/-- The methods of `Entity.cpp` that `main.cpp` calls and whose bodies are not
among the sources, as functions of the objects the call is handed:
`update dt self player map` and `normalise_movement self` return the new value
of their receiver and write nothing else; `check_collision self other` is a
test and writes nothing. -/
structure EntityOps where
  update : ℚ → Entity → Entity → Map → Entity
  check_collision : Entity → Entity → Bool
  normalise_movement : Entity → Entity

/-- `struct GameState`; `jump_sfx_plays` counts the calls
`Mix_PlayChannel(-1, jump_sfx, 0)` made so far. -/
structure GameState where
  player : Entity
  enemies : Fin ENEMY_COUNT → Entity
  map : Map
  jump_sfx_plays : Nat

/-- `enum AppStatus`. -/
inductive AppStatus
  | RUNNING
  | TERMINATED
  deriving DecidableEq, Repr

/-- The global variables of `main.cpp` that the frame loop reads and writes.
`g_view_shift` is the x translation of `g_view_matrix`; `g_text` is the text
the last `render` drew with `draw_text`, if any. -/
structure World where
  g_game_state : GameState
  g_app_status : AppStatus
  g_previous_ticks : ℚ
  g_accumulator : ℚ
  g_view_shift : ℚ
  g_text : Option String

/-- A `for (int i = 0; i < ENEMY_COUNT; i++)` loop: `body i` runs on the
state for `i = 0, 1, ..., ENEMY_COUNT - 1` in this order. -/
def for_each_enemy {σ : Type} (body : Fin ENEMY_COUNT → σ → σ) (s : σ) : σ :=
  (List.finRange ENEMY_COUNT).foldl (fun acc i => body i acc) s

/-! ## Encounter helpers (lines 241-249) -/

/-- `const float proximity_threshold = 1.5f`. -/
def proximity_threshold : ℚ := 3 / 2

/-- The position `glm::vec3(-100.0f, -100.0f, 0.0f)` of line 248. -/
def sentinel_position : Vec3 := ⟨-100, -100, 0⟩

/-- `is_enemy_nearby`: `glm::distance(p, e) <= proximity_threshold`, the
distance being the binary32 value `glm::distance` returns. -/
def is_enemy_nearby (player enemy : Entity) : Bool :=
  decide (Vec3.f32_distance player.position enemy.position ≤ proximity_threshold)

/-- `handle_enemy_collision(enemy_index)`: deactivate the enemy, then move it
to the sentinel position. -/
def handle_enemy_collision (enemy_index : Fin ENEMY_COUNT) (g : GameState) : GameState :=
  let g1 : GameState :=
    { g with enemies := Function.update g.enemies enemy_index (g.enemies enemy_index).deactivate }
  { g1 with
      enemies := Function.update g1.enemies enemy_index
        ((g1.enemies enemy_index).set_position sentinel_position) }

/-! ## `process_input` (lines 251-290) -/

/-- The key symbols `process_input` distinguishes. -/
inductive Keycode
  | SDLK_q
  | SDLK_SPACE
  | SDLK_a
  | other
  deriving DecidableEq, Repr

/-- The values of `event.type` that `process_input` distinguishes; a key-down
event carries `event.key.keysym.sym`. -/
inductive Event
  | SDL_QUIT
  | SDL_WINDOWEVENT_CLOSE
  | SDL_KEYDOWN (sym : Keycode)
  | other
  deriving DecidableEq, Repr

/-- The two entries of `SDL_GetKeyboardState` that `process_input` reads. -/
structure KeyState where
  SDL_SCANCODE_LEFT : Bool
  SDL_SCANCODE_RIGHT : Bool
  deriving DecidableEq, Repr

/-- The body of `case SDLK_a` (lines 272-277). -/
def attack (g : GameState) : GameState :=
  for_each_enemy (fun i s =>
    if (s.enemies i).is_active && is_enemy_nearby s.player (s.enemies i) then
      handle_enemy_collision i s
    else s) g

/-- One iteration of the `while (SDL_PollEvent(&event))` loop: the `switch`
on the event polled. -/
def handle_event (w : World) : Event → World
  | Event.SDL_QUIT => { w with g_app_status := AppStatus.TERMINATED }
  | Event.SDL_WINDOWEVENT_CLOSE => { w with g_app_status := AppStatus.TERMINATED }
  | Event.SDL_KEYDOWN Keycode.SDLK_q => { w with g_app_status := AppStatus.TERMINATED }
  | Event.SDL_KEYDOWN Keycode.SDLK_SPACE =>
      if w.g_game_state.player.collided_bottom then
        { w with g_game_state :=
            { w.g_game_state with
                player := w.g_game_state.player.jump
                jump_sfx_plays := w.g_game_state.jump_sfx_plays + 1 } }
      else w
  | Event.SDL_KEYDOWN Keycode.SDLK_a => { w with g_game_state := attack w.g_game_state }
  | Event.SDL_KEYDOWN Keycode.other => w
  | Event.other => w

/-- `process_input`, on the events queued for this frame (in polling order)
and the keyboard snapshot.  `glm::length(m) > 1.0f` is decided on squares: on
every path `m` is `(x, 0, 0)` with `x` one of `-1`, `0`, `1`, whose length
binary32 computes without rounding. -/
def process_input (ops : EntityOps) (events : List Event) (key_state : KeyState)
    (w : World) : World :=
  let w1 : World :=
    { w with g_game_state :=
        { w.g_game_state with player := w.g_game_state.player.set_movement Vec3.zero } }
  let w2 : World := events.foldl handle_event w1
  let w3 : World :=
    if key_state.SDL_SCANCODE_LEFT then
      { w2 with g_game_state := { w2.g_game_state with player := w2.g_game_state.player.move_left } }
    else if key_state.SDL_SCANCODE_RIGHT then
      { w2 with g_game_state := { w2.g_game_state with player := w2.g_game_state.player.move_right } }
    else w2
  if 1 < Vec3.length_sq w3.g_game_state.player.movement then
    { w3 with g_game_state :=
        { w3.g_game_state with player := ops.normalise_movement w3.g_game_state.player } }
  else w3

/-! ## `update` (lines 293-322) -/

/-- The body of the `while` loop of `update` but for the decrement of
`delta_time`: one simulation tick (lines 305-315). -/
def tick (ops : EntityOps) (g : GameState) : GameState :=
  let g1 : GameState := { g with player := ops.update FIXED_TIMESTEP g.player g.player g.map }
  for_each_enemy (fun i s =>
    if (s.enemies i).is_active then
      let s1 : GameState :=
        { s with
            enemies := Function.update s.enemies i
              (ops.update FIXED_TIMESTEP (s.enemies i) s.player s.map) }
      if ops.check_collision s1.player (s1.enemies i) then handle_enemy_collision i s1 else s1
    else s) g1

/-- `while (delta_time >= FIXED_TIMESTEP) { tick; delta_time -= FIXED_TIMESTEP; }`
(lines 304-317); returns the final `delta_time` and game state. -/
def update_loop (ops : EntityOps) (delta_time : ℚ) (g : GameState) : ℚ × GameState :=
  if FIXED_TIMESTEP ≤ delta_time then
    update_loop ops (delta_time - FIXED_TIMESTEP) (tick ops g)
  else (delta_time, g)
termination_by ⌊delta_time / FIXED_TIMESTEP⌋₊
decreasing_by
  rename_i h
  have hF : (0 : ℚ) < FIXED_TIMESTEP := by norm_num [FIXED_TIMESTEP]
  have h1 : (delta_time - FIXED_TIMESTEP) / FIXED_TIMESTEP = delta_time / FIXED_TIMESTEP - 1 := by
    field_simp
  have h2 : (1 : ℚ) ≤ delta_time / FIXED_TIMESTEP := by
    rw [le_div_iff₀ hF]; linarith
  have h3 : 0 < ⌊delta_time / FIXED_TIMESTEP⌋₊ := Nat.floor_pos.mpr h2
  rw [h1, Nat.floor_sub_one]
  omega

/-- `update`, given the value `SDL_GetTicks()` returns (milliseconds; any
rational, so that every elapsed time is covered). -/
def update (ops : EntityOps) (sdl_ticks : ℚ) (w : World) : World :=
  let ticks : ℚ := sdl_ticks / MILLISECONDS_IN_SECOND
  let delta_time : ℚ := ticks - w.g_previous_ticks
  let w1 : World := { w with g_previous_ticks := ticks }
  let delta_time : ℚ := delta_time + w1.g_accumulator
  if delta_time < FIXED_TIMESTEP then
    { w1 with g_accumulator := delta_time }
  else
    let r := update_loop ops delta_time w1.g_game_state
    { w1 with
        g_game_state := r.2
        g_accumulator := r.1
        g_view_shift := -r.2.player.position.x }

/-! ## `render` (lines 324-394) -/

/-- Lines 375-381: `all_enemies_defeated` starts `true` and the loop clears it
at the first active enemy and breaks; the iterations after the `break` do
nothing. -/
def all_enemies_defeated (g : GameState) : Bool :=
  for_each_enemy (fun i all =>
    if all then (if (g.enemies i).is_active then false else all) else all) true

/-- The win/loss part of `render` (lines 365-393): the text drawn by
`draw_text`, if any, and the new status.  The drawing calls and the
three-second delay have no effect on the state modelled. -/
def render (w : World) : World :=
  if !w.g_game_state.player.is_active then
    { w with g_text := some "YOU LOSE", g_app_status := AppStatus.TERMINATED }
  else if all_enemies_defeated w.g_game_state then
    { w with g_text := some "YOU WIN", g_app_status := AppStatus.TERMINATED }
  else { w with g_text := none }

/-! ## `main` (lines 408-417) -/

/-- What one frame takes from outside: the queued events, the keyboard
snapshot and the clock reading. -/
structure FrameInput where
  events : List Event
  key_state : KeyState
  sdl_ticks : ℚ

/-- The body of the `while` loop of `main`. -/
def frame (ops : EntityOps) (inp : FrameInput) (w : World) : World :=
  render (update ops inp.sdl_ticks (process_input ops inp.events inp.key_state w))

/-- `while (g_app_status == RUNNING) { process_input(); update(); render(); }`
run on the inputs of the frames that follow, one per frame. -/
def main_loop (ops : EntityOps) : List FrameInput → World → World
  | [], w => w
  | inp :: rest, w =>
      if w.g_app_status = AppStatus.RUNNING then main_loop ops rest (frame ops inp w) else w

/-! ## `initialise` (lines 159-238) -/

/-- Modelled from the spec: a freshly constructed `Entity` (the constructors
are in `Entity.cpp`, not among the sources) before the constructor arguments
and setters of `initialise` are applied: at the origin, at rest, without
contact, active. -/
def Entity.blank (t : EntityType) : Entity :=
  { position := Vec3.zero, movement := Vec3.zero, velocity := Vec3.zero,
    acceleration := Vec3.zero, speed := 0, jumping_power := 0, width := 0, height := 0,
    collided_top := false, collided_bottom := false, collided_left := false,
    collided_right := false, entity_type := t, ai_type := AIType.NONE,
    ai_state := AIState.IDLE, is_active := true }

/-- The game state `initialise` builds (lines 194-233), with the status and
clock variables at their initial values (lines 64 and 67). -/
def initialise : World :=
  { g_game_state :=
      { player :=
          { Entity.blank EntityType.PLAYER with
              speed := 4, acceleration := ⟨0, -4905 / 1000, 0⟩, jumping_power := 6,
              width := 1 / 2, height := 1 / 2 }
        enemies := fun i =>
          match i with
          | 0 => { Entity.blank EntityType.ENEMY with
                     speed := 1, width := 7 / 10, height := 7 / 10,
                     ai_type := AIType.SPINNER, ai_state := AIState.IDLE,
                     position := ⟨1, -1, 0⟩ }
          | 1 => { Entity.blank EntityType.ENEMY with
                     speed := 1, width := 1, height := 7 / 10,
                     ai_type := AIType.VERTICAL_MOVER, ai_state := AIState.WALKING,
                     position := ⟨10, 14 / 10, 0⟩ }
          | 2 => { Entity.blank EntityType.ENEMY with
                     speed := 1, width := 1 / 2, height := 1 / 2,
                     ai_type := AIType.JUMPER, ai_state := AIState.IDLE,
                     position := ⟨8, 5, 0⟩, acceleration := ⟨0, -4, 0⟩,
                     jumping_power := 3 / 2 }
        map :=
          { width := LEVEL1_WIDTH, height := LEVEL1_HEIGHT, level_data := LEVEL_1_DATA,
            tile_size := 1, tile_count_x := 2, tile_count_y := 2 }
        jump_sfx_plays := 0 }
    g_app_status := AppStatus.RUNNING
    g_previous_ticks := 0
    g_accumulator := 0
    g_view_shift := 0
    g_text := none }

/-! ## An instance of the missing `Entity` methods -/

/-- Modelled from the spec: `Entity::update` (in `Entity.cpp`, not among the
sources) as section 4.2 describes it for a body that meets no solid tile: an
inactive entity is skipped, the four contact flags are cleared, gravity is
integrated into the vertical velocity and the position advances. -/
def free_update (dt : ℚ) (self _player : Entity) (_map : Map) : Entity :=
  if self.is_active then
    let vy : ℚ := self.velocity.y + self.acceleration.y * dt
    { self with
        collided_top := false, collided_bottom := false,
        collided_left := false, collided_right := false,
        velocity := { self.velocity with y := vy }
        position :=
          { x := self.position.x + self.movement.x * self.speed * dt
            y := self.position.y + vy * dt
            z := self.position.z } }
  else self

/-- Modelled from the spec: `Entity::check_collision` (in `Entity.cpp`, not
among the sources) as the overlap test of two axis-aligned boxes centred on
the positions, `width` and `height` being half-extents. -/
def aabb_overlap (self other : Entity) : Bool :=
  decide (|self.position.x - other.position.x| < self.width + other.width) &&
    decide (|self.position.y - other.position.y| < self.height + other.height)

/-- Modelled from the spec: `Entity::normalise_movement` (in `Entity.cpp`, not
among the sources) on movements along the x axis, which it rescales to length
one; any other movement is returned as it is. -/
def axis_normalise (self : Entity) : Entity :=
  if self.movement.y = 0 ∧ self.movement.z = 0 then
    { self with movement :=
        { self.movement with
            x := if 0 < self.movement.x then 1 else if self.movement.x < 0 then -1 else 0 } }
  else self

/-- The instance of the missing methods at which the theorems below are
evaluated on concrete inputs. -/
def sample_ops : EntityOps :=
  { update := free_update, check_collision := aabb_overlap, normalise_movement := axis_normalise }

/-! ## Quantities named by the properties -/

/-- The time elapsed since the previous call of `update`, in seconds, when the
clock reads `sdl_ticks`. -/
def elapsed (sdl_ticks : ℚ) (w : World) : ℚ :=
  sdl_ticks / MILLISECONDS_IN_SECOND - w.g_previous_ticks

/-- The number of whole timesteps in the carried accumulator plus the elapsed
time: `floor ((a + e) / FIXED_TIMESTEP)`. -/
def ticks_due (sdl_ticks : ℚ) (w : World) : Nat :=
  ⌊(w.g_accumulator + elapsed sdl_ticks w) / FIXED_TIMESTEP⌋₊

/-- An enemy after `handle_enemy_collision` has retired it: inactive and at
the sentinel position, its other fields as they were. -/
def retired (e : Entity) : Entity := (e.deactivate).set_position sentinel_position

/-- The player after the first statement of a tick (line 305). -/
def player_after_tick (ops : EntityOps) (g : GameState) : Entity :=
  ops.update FIXED_TIMESTEP g.player g.player g.map

/-- Enemy `e` right after its own `update` within a tick (line 309), the
player having been updated before. -/
def enemy_after_update (ops : EntityOps) (g : GameState) (e : Entity) : Entity :=
  ops.update FIXED_TIMESTEP e (player_after_tick ops g) g.map

/-- The result of the collision test of line 311 for enemy `e`. -/
def tick_collision_test (ops : EntityOps) (g : GameState) (e : Entity) : Bool :=
  ops.check_collision (player_after_tick ops g) (enemy_after_update ops g e)

/-- What a tick does to one enemy, given the updated player: an active enemy
is updated and, if the collision test then holds, retired. -/
def tick_enemy (ops : EntityOps) (player : Entity) (map : Map) (e : Entity) : Entity :=
  if e.is_active then
    if ops.check_collision player (ops.update FIXED_TIMESTEP e player map) then
      retired (ops.update FIXED_TIMESTEP e player map)
    else ops.update FIXED_TIMESTEP e player map
  else e

/-- What the attack does to one enemy, given the player. -/
def attack_enemy (player : Entity) (e : Entity) : Entity :=
  if e.is_active && is_enemy_nearby player e then retired e else e

/-- A loop body that replaces enemy `i` by `f i player map (enemy i)` and
leaves the rest of the game state alone. -/
def map_enemy (f : Fin ENEMY_COUNT → Entity → Map → Entity → Entity) (i : Fin ENEMY_COUNT)
    (s : GameState) : GameState :=
  { s with enemies := Function.update s.enemies i (f i s.player s.map (s.enemies i)) }

/-- The two-phase tick the specification describes: first the player and
every active enemy are updated, and only then each of those enemies is tested
against the player and the overlapping ones are retired. -/
def tick_two_phase (ops : EntityOps) (g : GameState) : GameState :=
  let g1 : GameState := { g with player := ops.update FIXED_TIMESTEP g.player g.player g.map }
  let g2 : GameState :=
    for_each_enemy (fun i s =>
      if (s.enemies i).is_active then
        { s with
            enemies := Function.update s.enemies i
              (ops.update FIXED_TIMESTEP (s.enemies i) s.player s.map) }
      else s) g1
  for_each_enemy (fun i s =>
    if (g.enemies i).is_active && ops.check_collision s.player (s.enemies i) then
      handle_enemy_collision i s
    else s) g2

/-- The game state of `initialise` with the player moved onto the first
enemy, the spinner at `(1, -1, 0)`. -/
def player_on_spinner : GameState :=
  { initialise.g_game_state with
      player := initialise.g_game_state.player.set_position ⟨1, -1, 0⟩ }

/-- A world in which the player and all three enemies are inactive. -/
def all_inactive : World :=
  { initialise with
      g_game_state :=
        { initialise.g_game_state with
            player := initialise.g_game_state.player.deactivate
            enemies := fun i => (initialise.g_game_state.enemies i).deactivate } }

/-- The world of `initialise` with the three enemies inactive and the player
still active. -/
def enemies_cleared : World :=
  { initialise with
      g_game_state :=
        { initialise.g_game_state with
            enemies := fun i => (initialise.g_game_state.enemies i).deactivate } }

/-- The world of `initialise` with the spinner moved to `(1.5, 2 ^ (-13), 0)`,
all three coordinates binary32 values; the player is at the origin. -/
def spinner_grazing : World :=
  { initialise with
      g_game_state :=
        { initialise.g_game_state with
            enemies := Function.update initialise.g_game_state.enemies 0
              ((initialise.g_game_state.enemies 0).set_position ⟨3 / 2, 1 / 8192, 0⟩) } }

/-- The world of `initialise` with the player standing on the ground. -/
def grounded : World :=
  { initialise with
      g_game_state :=
        { initialise.g_game_state with
            player := { initialise.g_game_state.player with collided_bottom := true } } }

/-- The world of `initialise` with the spinner switched off where it stands,
next to the player. -/
def spinner_off : World :=
  { initialise with
      g_game_state :=
        { initialise.g_game_state with
            enemies := Function.update initialise.g_game_state.enemies 0
              (initialise.g_game_state.enemies 0).deactivate } }

/-- A frame in which the attack key and the jump key were pressed, right is
held, and fifty milliseconds have passed. -/
def busy_frame : FrameInput :=
  { events := [Event.SDL_KEYDOWN Keycode.SDLK_a, Event.SDL_KEYDOWN Keycode.SDLK_SPACE]
    key_state := ⟨false, true⟩
    sdl_ticks := 50 }

/-- The value `process_input` leaves in `movement.x`, read off the keyboard
snapshot: left wins over right. -/
def intent_x (key_state : KeyState) : ℚ :=
  if key_state.SDL_SCANCODE_LEFT then -1 else if key_state.SDL_SCANCODE_RIGHT then 1 else 0

/-! ## Lemmas on the loops -/

theorem for_each_enemy_eq {σ : Type} (body : Fin ENEMY_COUNT → σ → σ) (s : σ) :
    for_each_enemy body s = body 2 (body 1 (body 0 s)) := rfl

theorem FIXED_TIMESTEP_pos : (0 : ℚ) < FIXED_TIMESTEP := by norm_num [FIXED_TIMESTEP]

theorem update_loop_eq (ops : EntityOps) (d : ℚ) (g : GameState) :
    update_loop ops d g =
      if FIXED_TIMESTEP ≤ d then update_loop ops (d - FIXED_TIMESTEP) (tick ops g) else (d, g) := by
  rw [update_loop]

theorem update_loop_spec (ops : EntityOps) (n : Nat) :
    ∀ (d : ℚ) (g : GameState), (n : ℚ) * FIXED_TIMESTEP ≤ d → d < (n + 1) * FIXED_TIMESTEP →
      update_loop ops d g = (d - n * FIXED_TIMESTEP, (tick ops)^[n] g) := by
  induction n with
  | zero =>
    intro d g _ h1
    rw [update_loop_eq, if_neg (by simpa using h1)]
    simp
  | succ k ih =>
    intro d g h0 h1
    have hF := FIXED_TIMESTEP_pos
    push_cast at h0 h1
    have hk : FIXED_TIMESTEP ≤ d := by nlinarith
    rw [update_loop_eq, if_pos hk, ih (d - FIXED_TIMESTEP) (tick ops g) (by linarith) (by linarith)]
    simp only [Function.iterate_succ, Function.comp_apply, Prod.mk.injEq, and_true]
    push_cast; ring

theorem floor_bounds (d : ℚ) (hd : 0 ≤ d) :
    (⌊d / FIXED_TIMESTEP⌋₊ : ℚ) * FIXED_TIMESTEP ≤ d ∧
      d < ((⌊d / FIXED_TIMESTEP⌋₊ : ℚ) + 1) * FIXED_TIMESTEP := by
  have hF := FIXED_TIMESTEP_pos
  have hq : 0 ≤ d / FIXED_TIMESTEP := div_nonneg hd hF.le
  constructor
  · have := Nat.floor_le hq
    rwa [le_div_iff₀ hF] at this
  · have := Nat.lt_floor_add_one (d / FIXED_TIMESTEP)
    rwa [div_lt_iff₀ hF] at this

/-- C1. One call of `update` with carried accumulator `a` in `[0, FIXED_TIMESTEP)`
and elapsed time `e >= 0` runs exactly `n = floor ((a + e) / FIXED_TIMESTEP)`
ticks and leaves `g_accumulator = a + e - n * FIXED_TIMESTEP`, which lies in
`[0, FIXED_TIMESTEP)`. -/
theorem update_runs_floor_ticks (ops : EntityOps) (w : World) (sdl_ticks : ℚ)
    (ha0 : 0 ≤ w.g_accumulator) (_ha1 : w.g_accumulator < FIXED_TIMESTEP)
    (he : 0 ≤ elapsed sdl_ticks w) :
    (update ops sdl_ticks w).g_game_state = (tick ops)^[ticks_due sdl_ticks w] w.g_game_state ∧
    (update ops sdl_ticks w).g_accumulator =
      w.g_accumulator + elapsed sdl_ticks w - ticks_due sdl_ticks w * FIXED_TIMESTEP ∧
    0 ≤ (update ops sdl_ticks w).g_accumulator ∧
    (update ops sdl_ticks w).g_accumulator < FIXED_TIMESTEP := by
  have hd : 0 ≤ w.g_accumulator + elapsed sdl_ticks w := by linarith
  obtain ⟨hlo, hhi⟩ := floor_bounds _ hd
  have hF := FIXED_TIMESTEP_pos
  have hloop := update_loop_spec ops (ticks_due sdl_ticks w)
    (w.g_accumulator + elapsed sdl_ticks w) w.g_game_state hlo hhi
  have hcomm : sdl_ticks / MILLISECONDS_IN_SECOND - w.g_previous_ticks + w.g_accumulator
      = w.g_accumulator + elapsed sdl_ticks w := by unfold elapsed; ring
  by_cases hlt : w.g_accumulator + elapsed sdl_ticks w < FIXED_TIMESTEP
  · have hn : ticks_due sdl_ticks w = 0 := by
      unfold ticks_due
      rw [Nat.floor_eq_zero, div_lt_iff₀ hF]; linarith
    simp only [update, hcomm, if_pos hlt, hn]
    simp only [Function.iterate_zero, id_eq, Nat.cast_zero, zero_mul, sub_zero, true_and]
    exact ⟨hd, hlt⟩
  · simp only [update, hcomm, if_neg hlt, hloop]
    refine ⟨trivial, trivial, ?_, ?_⟩
    · unfold ticks_due; linarith
    · unfold ticks_due; linarith


theorem half_step_frame :
    update sample_ops (83333 / 10000) initialise =
      { initialise with
          g_previous_ticks := FIXED_TIMESTEP / 2, g_accumulator := FIXED_TIMESTEP / 2 } := by
  have h : FIXED_TIMESTEP / 2 - initialise.g_previous_ticks + initialise.g_accumulator
      = FIXED_TIMESTEP / 2 := by
    norm_num [initialise]
  have h2 : (83333 / 10000 : ℚ) / MILLISECONDS_IN_SECOND = FIXED_TIMESTEP / 2 := by
    norm_num [MILLISECONDS_IN_SECOND, FIXED_TIMESTEP]
  have hlt : FIXED_TIMESTEP / 2 < FIXED_TIMESTEP := by norm_num [FIXED_TIMESTEP]
  simp only [update, h, h2, if_pos hlt]

/-- Scenario F: from `a = 0`, two consecutive frames that each add half a
timestep run no tick on the first frame and exactly one tick on the second. -/
theorem update_runs_floor_ticks_witness :
    ticks_due (83333 / 10000) initialise = 0 ∧
    (update sample_ops (83333 / 10000) initialise).g_game_state = initialise.g_game_state ∧
    ticks_due (166666 / 10000) (update sample_ops (83333 / 10000) initialise) = 1 ∧
    (update sample_ops (166666 / 10000)
        (update sample_ops (83333 / 10000) initialise)).g_game_state
      = tick sample_ops initialise.g_game_state ∧
    (update sample_ops (166666 / 10000)
        (update sample_ops (83333 / 10000) initialise)).g_accumulator = 0 := by
  have n1 : ticks_due (83333 / 10000) initialise = 0 := by
    unfold ticks_due elapsed
    rw [Nat.floor_eq_zero]
    norm_num [MILLISECONDS_IN_SECOND, initialise, FIXED_TIMESTEP]
  have n2 : ticks_due (166666 / 10000) (update sample_ops (83333 / 10000) initialise) = 1 := by
    rw [half_step_frame]
    unfold ticks_due elapsed
    rw [Nat.floor_eq_iff (by norm_num [MILLISECONDS_IN_SECOND, FIXED_TIMESTEP])]
    norm_num [MILLISECONDS_IN_SECOND, FIXED_TIMESTEP]
  have f1 := update_runs_floor_ticks sample_ops initialise (83333 / 10000)
    (by norm_num [initialise]) (by norm_num [initialise, FIXED_TIMESTEP])
    (by norm_num [elapsed, MILLISECONDS_IN_SECOND, initialise])
  have f2 := update_runs_floor_ticks sample_ops
    (update sample_ops (83333 / 10000) initialise) (166666 / 10000)
    (by rw [half_step_frame]; norm_num [FIXED_TIMESTEP])
    (by rw [half_step_frame]; norm_num [FIXED_TIMESTEP])
    (by rw [half_step_frame]; norm_num [elapsed, MILLISECONDS_IN_SECOND, FIXED_TIMESTEP])
  rw [n1] at f1
  rw [n2] at f2
  refine ⟨n1, f1.1, n2, ?_, ?_⟩
  · rw [f2.1, half_step_frame]; rfl
  · rw [f2.2.1, half_step_frame]
    norm_num [elapsed, MILLISECONDS_IN_SECOND, FIXED_TIMESTEP]


theorem for_each_enemy_map_enemy (f : Fin ENEMY_COUNT → Entity → Map → Entity → Entity)
    (s : GameState) :
    for_each_enemy (map_enemy f) s =
      { s with enemies := fun i => f i s.player s.map (s.enemies i) } := by
  rw [for_each_enemy_eq]
  simp only [map_enemy]
  congr 1
  funext i
  fin_cases i <;> rfl

theorem handle_enemy_collision_eq (i : Fin ENEMY_COUNT) (g : GameState) :
    handle_enemy_collision i g =
      { g with enemies := Function.update g.enemies i (retired (g.enemies i)) } := by
  simp [handle_enemy_collision, retired]

theorem tick_eq (ops : EntityOps) (g : GameState) :
    tick ops g =
      { g with
          player := player_after_tick ops g
          enemies := fun i => tick_enemy ops (player_after_tick ops g) g.map (g.enemies i) } := by
  have hbody : (fun (i : Fin ENEMY_COUNT) (s : GameState) =>
      if (s.enemies i).is_active then
        let s1 : GameState :=
          { s with
              enemies := Function.update s.enemies i
                (ops.update FIXED_TIMESTEP (s.enemies i) s.player s.map) }
        if ops.check_collision s1.player (s1.enemies i) then handle_enemy_collision i s1 else s1
      else s) = map_enemy (fun _ => tick_enemy ops) := by
    funext i s
    simp only [map_enemy, tick_enemy, handle_enemy_collision_eq, Function.update_same,
      Function.update_idem]
    split_ifs <;> simp
  unfold tick
  rw [hbody, for_each_enemy_map_enemy]
  rfl

theorem attack_eq (g : GameState) :
    attack g = { g with enemies := fun i => attack_enemy g.player (g.enemies i) } := by
  have hbody : (fun (i : Fin ENEMY_COUNT) (s : GameState) =>
      if (s.enemies i).is_active && is_enemy_nearby s.player (s.enemies i) then
        handle_enemy_collision i s
      else s) = map_enemy (fun _ p _ e => attack_enemy p e) := by
    funext i s
    simp only [map_enemy, attack_enemy, handle_enemy_collision_eq]
    split_ifs <;> simp
  unfold attack
  rw [hbody, for_each_enemy_map_enemy]

/-- C10. One tick of `update`, which interleaves the update of enemy `i` with
the collision test of enemy `i`, gives the same game state as the two-phase
tick that first updates the player and every active enemy and only then tests
each of those enemies against the player and retires the overlapping ones. -/
theorem tick_eq_tick_two_phase (ops : EntityOps) (g : GameState) :
    tick ops g = tick_two_phase ops g := by
  have h1 : (fun (i : Fin ENEMY_COUNT) (s : GameState) =>
      if (s.enemies i).is_active then
        { s with
            enemies := Function.update s.enemies i
              (ops.update FIXED_TIMESTEP (s.enemies i) s.player s.map) }
      else s) = map_enemy (fun _ p m e => if e.is_active then ops.update FIXED_TIMESTEP e p m else e) := by
    funext i s
    simp only [map_enemy]
    split_ifs <;> simp
  have h2 : (fun (i : Fin ENEMY_COUNT) (s : GameState) =>
      if (g.enemies i).is_active && ops.check_collision s.player (s.enemies i) then
        handle_enemy_collision i s
      else s) = map_enemy (fun i p _ e =>
        if (g.enemies i).is_active && ops.check_collision p e then retired e else e) := by
    funext i s
    simp only [map_enemy, handle_enemy_collision_eq]
    split_ifs <;> simp
  rw [tick_eq]
  unfold tick_two_phase
  simp only [h1, h2, for_each_enemy_map_enemy]
  congr 1
  funext i
  simp only [tick_enemy, player_after_tick]
  cases (g.enemies i).is_active <;> simp


theorem tick_player (ops : EntityOps) (g : GameState) :
    (tick ops g).player = player_after_tick ops g := by
  rw [tick_eq]

theorem tick_enemies (ops : EntityOps) (g : GameState) (i : Fin ENEMY_COUNT) :
    (tick ops g).enemies i = tick_enemy ops (player_after_tick ops g) g.map (g.enemies i) := by
  rw [tick_eq]

theorem tick_enemy_hit (ops : EntityOps) (g : GameState) (i : Fin ENEMY_COUNT)
    (hact : (g.enemies i).is_active = true)
    (ht : tick_collision_test ops g (g.enemies i) = true) :
    (tick ops g).enemies i = retired (enemy_after_update ops g (g.enemies i)) := by
  have ht2 : ops.check_collision (player_after_tick ops g)
      (ops.update FIXED_TIMESTEP (g.enemies i) (player_after_tick ops g) g.map) = true := ht
  rw [tick_enemies]
  simp [tick_enemy, hact, ht2, enemy_after_update]

theorem tick_enemy_miss (ops : EntityOps) (g : GameState) (i : Fin ENEMY_COUNT)
    (hact : (g.enemies i).is_active = true)
    (ht : tick_collision_test ops g (g.enemies i) = false) :
    (tick ops g).enemies i = enemy_after_update ops g (g.enemies i) := by
  have ht2 : ops.check_collision (player_after_tick ops g)
      (ops.update FIXED_TIMESTEP (g.enemies i) (player_after_tick ops g) g.map) = false := ht
  rw [tick_enemies]
  simp [tick_enemy, hact, ht2, enemy_after_update]

/-- C3. In a tick, an enemy that is active at its turn and for which the
collision test holds after its own update ends the tick inactive and at the
sentinel position; if the test fails the tick leaves it as its update returned
it, hence active when its update kept it active; and `handle_enemy_collision i`
changes neither the player nor any enemy other than `i`. -/
theorem tick_enemy_side (ops : EntityOps) (g : GameState) (i : Fin ENEMY_COUNT)
    (hact : (g.enemies i).is_active = true) :
    (tick_collision_test ops g (g.enemies i) = true →
      ((tick ops g).enemies i).is_active = false ∧
      ((tick ops g).enemies i).position = sentinel_position) ∧
    (tick_collision_test ops g (g.enemies i) = false →
      (tick ops g).enemies i = enemy_after_update ops g (g.enemies i) ∧
      ((enemy_after_update ops g (g.enemies i)).is_active = true →
        ((tick ops g).enemies i).is_active = true)) ∧
    (∀ s : GameState,
      (handle_enemy_collision i s).player = s.player ∧
      ∀ j : Fin ENEMY_COUNT, j ≠ i → (handle_enemy_collision i s).enemies j = s.enemies j) := by
  refine ⟨?_, ?_, ?_⟩
  · intro ht
    rw [tick_enemy_hit ops g i hact ht]
    exact ⟨rfl, rfl⟩
  · intro ht
    have hres := tick_enemy_miss ops g i hact ht
    exact ⟨hres, fun h => by rw [hres]; exact h⟩
  · intro s
    rw [handle_enemy_collision_eq]
    exact ⟨rfl, fun j hj => by simp [Function.update, hj]⟩

theorem player_on_spinner_test :
    tick_collision_test sample_ops player_on_spinner (player_on_spinner.enemies 0) = true := by
  simp [tick_collision_test, enemy_after_update, player_after_tick, sample_ops, free_update,
    aabb_overlap, player_on_spinner, initialise, Entity.blank, Entity.set_position, Vec3.zero,
    FIXED_TIMESTEP]
  norm_num [abs_lt]

theorem player_on_spinner_far_test :
    tick_collision_test sample_ops player_on_spinner (player_on_spinner.enemies 1) = false := by
  simp [tick_collision_test, enemy_after_update, player_after_tick, sample_ops, free_update,
    aabb_overlap, player_on_spinner, initialise, Entity.blank, Entity.set_position, Vec3.zero,
    FIXED_TIMESTEP]
  norm_num [abs_lt]

/-- The player stands on the spinner: the tick retires the spinner, and the
vertical mover, nine units away, stays active. -/
theorem tick_enemy_side_witness :
    ((player_on_spinner.enemies 0).is_active = true ∧
      tick_collision_test sample_ops player_on_spinner (player_on_spinner.enemies 0) = true ∧
      ((tick sample_ops player_on_spinner).enemies 0).is_active = false ∧
      ((tick sample_ops player_on_spinner).enemies 0).position = sentinel_position) ∧
    ((player_on_spinner.enemies 1).is_active = true ∧
      tick_collision_test sample_ops player_on_spinner (player_on_spinner.enemies 1) = false ∧
      ((tick sample_ops player_on_spinner).enemies 1).is_active = true) :=
  ⟨⟨rfl, player_on_spinner_test,
      (tick_enemy_side sample_ops player_on_spinner 0 rfl).1 player_on_spinner_test⟩,
    ⟨rfl, player_on_spinner_far_test,
      ((tick_enemy_side sample_ops player_on_spinner 1 rfl).2.1 player_on_spinner_far_test).2
        rfl⟩⟩


theorem render_game_state (w : World) : (render w).g_game_state = w.g_game_state := by
  unfold render
  split_ifs <;> rfl

/-- C2. At the failing input: the player stands on the active spinner, the
collision test of the tick holds for it, and the tick retires the spinner but
leaves the player active, so the next `render` draws no "YOU LOSE"; whatever
the missing methods are, the player after a tick is what its own `update`
returned. -/
theorem tick_overlap_leaves_player_active :
    (player_on_spinner.enemies 0).is_active = true ∧
    aabb_overlap player_on_spinner.player (player_on_spinner.enemies 0) = true ∧
    tick_collision_test sample_ops player_on_spinner (player_on_spinner.enemies 0) = true ∧
    ((tick sample_ops player_on_spinner).enemies 0).is_active = false ∧
    (tick sample_ops player_on_spinner).player.is_active = true ∧
    (render { initialise with g_game_state := tick sample_ops player_on_spinner }).g_text
      ≠ some "YOU LOSE" ∧
    ∀ (ops : EntityOps) (g : GameState),
      (tick ops g).player = ops.update FIXED_TIMESTEP g.player g.player g.map := by
  have hp : (tick sample_ops player_on_spinner).player.is_active = true := by
    rw [tick_player]
    simp [player_after_tick, sample_ops, free_update, player_on_spinner, initialise,
      Entity.blank, Entity.set_position]
  refine ⟨rfl, ?_, player_on_spinner_test, ?_, hp, ?_, fun ops g => tick_player ops g⟩
  · simp [aabb_overlap, player_on_spinner, initialise, Entity.blank, Entity.set_position]
    norm_num
  · rw [tick_enemy_hit sample_ops player_on_spinner 0 rfl player_on_spinner_test]
    rfl
  · simp only [render, hp]
    split_ifs <;> simp_all


theorem attack_player (g : GameState) : (attack g).player = g.player := by
  rw [attack_eq]

theorem attack_enemies (g : GameState) (i : Fin ENEMY_COUNT) :
    (attack g).enemies i = attack_enemy g.player (g.enemies i) := by
  rw [attack_eq]

/-! ## Evaluating the binary32 operations -/

theorem round_half_even_eq (x : ℚ) (n : ℤ) (h1 : (n : ℚ) ≤ x) (h2 : x < n + 1 / 2) :
    round_half_even x = n := by
  have hfl : ⌊x⌋ = n := by
    rw [Int.floor_eq_iff]
    exact ⟨h1, by linarith⟩
  unfold round_half_even
  rw [hfl, if_pos (by linarith)]

theorem int_log_two_eq (q : ℚ) (e : ℤ) (h1 : (2 : ℚ) ^ e ≤ q) (h2 : q < (2 : ℚ) ^ (e + 1)) :
    Int.log 2 q = e := by
  have hq : 0 < q := lt_of_lt_of_le (by positivity) h1
  have ha : e ≤ Int.log 2 q :=
    (Int.zpow_le_iff_le_log (by norm_num) hq).mp (by exact_mod_cast h1)
  have hb : Int.log 2 q < e + 1 :=
    (Int.lt_zpow_iff_log_lt (by norm_num) hq).mp (by exact_mod_cast h2)
  omega

theorem f32_round_eval (q : ℚ) (e n : ℤ) (he : -126 ≤ e) (h1 : (2 : ℚ) ^ e ≤ |q|)
    (h2 : |q| < (2 : ℚ) ^ (e + 1)) (hn1 : (n : ℚ) ≤ q / 2 ^ (e - 23))
    (hn2 : q / 2 ^ (e - 23) < n + 1 / 2) : f32_round q = n * 2 ^ (e - 23) := by
  have hulp : f32_ulp q = 2 ^ (e - 23) := by
    unfold f32_ulp
    rw [int_log_two_eq |q| e h1 h2, max_eq_left he]
  unfold f32_round
  rw [hulp, round_half_even_eq _ n hn1 hn2]

theorem f32_round_zero : f32_round 0 = 0 := by
  simp [f32_round, round_half_even]

theorem f32_sqrt_eval (s : ℚ) (e : ℤ) (m : ℕ) (h1 : (2 : ℚ) ^ (2 * e) ≤ s)
    (h2 : s < (2 : ℚ) ^ (2 * e + 1 + 1))
    (hm1 : ((m * m : ℕ) : ℚ) ≤ s / (2 ^ (e - 23) * 2 ^ (e - 23)))
    (hm2 : s / (2 ^ (e - 23) * 2 ^ (e - 23)) < ((m + 1) * (m + 1) : ℕ))
    (hlt : s < (m + 1 / 2) * 2 ^ (e - 23) * ((m + 1 / 2) * 2 ^ (e - 23))) :
    f32_sqrt s = m * 2 ^ (e - 23) := by
  have hs : 0 < s := lt_of_lt_of_le (by positivity) h1
  have hlog : Int.log 2 s / 2 = e := by
    have ha : 2 * e ≤ Int.log 2 s :=
      (Int.zpow_le_iff_le_log (by norm_num) hs).mp (by exact_mod_cast h1)
    have hb : Int.log 2 s < 2 * e + 1 + 1 :=
      (Int.lt_zpow_iff_log_lt (by norm_num) hs).mp (by exact_mod_cast h2)
    omega
  have hq : 0 ≤ s / (2 ^ (e - 23) * 2 ^ (e - 23)) := by positivity
  have hm : Nat.sqrt ⌊s / ((2 : ℚ) ^ (e - 23) * 2 ^ (e - 23))⌋₊ = m := by
    symm
    rw [Nat.eq_sqrt]
    exact ⟨Nat.le_floor hm1, (Nat.floor_lt hq).mpr hm2⟩
  unfold f32_sqrt
  rw [if_neg (not_le.mpr hs)]
  simp only [hlog, hm]
  rw [if_pos hlt]

/-! ## Error bounds of the binary32 operations -/

theorem round_half_even_near (x : ℚ) :
    (round_half_even x : ℚ) - x ≤ 1 / 2 ∧ x - round_half_even x ≤ 1 / 2 := by
  have h1 := Int.floor_le x
  have h2 := Int.lt_floor_add_one x
  unfold round_half_even
  split_ifs with ha hb hc
  · constructor <;> linarith
  · push_cast; constructor <;> linarith
  · constructor <;> linarith
  · push_cast; constructor <;> linarith

theorem round_half_even_nonneg (x : ℚ) (hx : 0 ≤ x) : 0 ≤ round_half_even x := by
  have h0 : 0 ≤ ⌊x⌋ := Int.floor_nonneg.mpr hx
  unfold round_half_even
  split_ifs <;> omega

theorem f32_ulp_pos (q : ℚ) : 0 < f32_ulp q := by
  unfold f32_ulp
  positivity

theorem f32_ulp_le (q : ℚ) (hq0 : q ≠ 0) : f32_ulp q ≤ |q| / 8388608 + 2 ^ (-149 : ℤ) := by
  unfold f32_ulp
  rcases le_total (Int.log 2 |q|) (-126) with h | h
  · rw [max_eq_right h]
    have : (0 : ℚ) ≤ |q| / 8388608 := by positivity
    norm_num at this ⊢
    linarith
  · rw [max_eq_left h]
    have hq : 0 < |q| := abs_pos.mpr hq0
    have hle := Int.zpow_log_le_self (b := 2) (by norm_num) hq
    have hsplit : (2 : ℚ) ^ (Int.log 2 |q| - 23) = 2 ^ (Int.log 2 |q|) / 8388608 := by
      rw [zpow_sub₀ (by norm_num)]
      norm_num
    rw [hsplit]
    have hle2 : (2 : ℚ) ^ (Int.log 2 |q|) ≤ |q| := by exact_mod_cast hle
    have : (0 : ℚ) < 2 ^ (-149 : ℤ) := by positivity
    have : (2 : ℚ) ^ (Int.log 2 |q|) / 8388608 ≤ |q| / 8388608 := by
      apply div_le_div_of_nonneg_right hle2 (by norm_num)
    linarith

theorem f32_round_near (q : ℚ) :
    |f32_round q - q| ≤ |q| / 16777216 + 2 ^ (-150 : ℤ) := by
  rcases eq_or_ne q 0 with rfl | hq0
  · have : f32_round 0 = 0 := by simp [f32_round, round_half_even]
    rw [this]
    have : (0 : ℚ) < 2 ^ (-150 : ℤ) := by positivity
    simp only [sub_zero, abs_zero, zero_div, zero_add]
    exact this.le
  have hu := f32_ulp_pos q
  have hle := f32_ulp_le q hq0
  obtain ⟨h1, h2⟩ := round_half_even_near (q / f32_ulp q)
  have hq : q / f32_ulp q * f32_ulp q = q := div_mul_cancel₀ _ hu.ne'
  have e1 : f32_round q - q
      = ((round_half_even (q / f32_ulp q) : ℚ) - q / f32_ulp q) * f32_ulp q := by
    rw [sub_mul, hq]
    rfl
  have hb : |f32_round q - q| ≤ f32_ulp q / 2 := by
    rw [e1, abs_mul, abs_of_pos hu]
    have : |(round_half_even (q / f32_ulp q) : ℚ) - q / f32_ulp q| ≤ 1 / 2 := by
      rw [abs_le]; constructor <;> linarith
    nlinarith
  have h150 : (2 : ℚ) ^ (-150 : ℤ) = 2 ^ (-149 : ℤ) / 2 := by
    rw [show (-150 : ℤ) = -149 - 1 by norm_num, zpow_sub₀ (by norm_num)]
    norm_num
  rw [h150]
  linarith

theorem f32_round_nonneg (q : ℚ) (hq : 0 ≤ q) : 0 ≤ f32_round q := by
  unfold f32_round
  have hu := f32_ulp_pos q
  have : 0 ≤ round_half_even (q / f32_ulp q) := round_half_even_nonneg _ (by positivity)
  have : (0 : ℚ) ≤ (round_half_even (q / f32_ulp q) : ℚ) := by exact_mod_cast this
  positivity

theorem f32_sqrt_spec (s : ℚ) (hs : 0 < s) :
    ∃ m : ℕ,
      (m * 2 ^ (Int.log 2 s / 2 - 23)) * (m * 2 ^ (Int.log 2 s / 2 - 23)) ≤ s ∧
      s < ((m + 1) * 2 ^ (Int.log 2 s / 2 - 23)) * ((m + 1) * 2 ^ (Int.log 2 s / 2 - 23)) ∧
      ((f32_sqrt s = m * 2 ^ (Int.log 2 s / 2 - 23) ∧
          s ≤ ((m + 1 / 2) * 2 ^ (Int.log 2 s / 2 - 23))
            * ((m + 1 / 2) * 2 ^ (Int.log 2 s / 2 - 23))) ∨
        (f32_sqrt s = (m + 1) * 2 ^ (Int.log 2 s / 2 - 23) ∧
          ((m + 1 / 2) * 2 ^ (Int.log 2 s / 2 - 23))
            * ((m + 1 / 2) * 2 ^ (Int.log 2 s / 2 - 23)) ≤ s)) := by
  set u : ℚ := 2 ^ (Int.log 2 s / 2 - 23) with hu
  have hupos : 0 < u := by positivity
  have huu : 0 < u * u := by positivity
  set n : ℕ := ⌊s / (u * u)⌋₊ with hn
  set m : ℕ := Nat.sqrt n with hm
  have hq : 0 ≤ s / (u * u) := by positivity
  have hn1 : (n : ℚ) ≤ s / (u * u) := Nat.floor_le hq
  have hn2 : s / (u * u) < n + 1 := Nat.lt_floor_add_one _
  have hm1 : m * m ≤ n := Nat.sqrt_le n
  have hm2 : n < (m + 1) * (m + 1) := Nat.lt_succ_sqrt n
  have hm1q : (m : ℚ) * m ≤ n := by exact_mod_cast hm1
  have hm2q : (n : ℚ) + 1 ≤ (m + 1) * (m + 1) := by exact_mod_cast hm2
  have hlo : (m * u) * (m * u) ≤ s := by
    have : (m : ℚ) * m ≤ s / (u * u) := le_trans hm1q hn1
    rw [le_div_iff₀ huu] at this
    linarith
  have hhi : s < ((m + 1) * u) * ((m + 1) * u) := by
    have : s / (u * u) < (m + 1) * (m + 1) := lt_of_lt_of_le hn2 hm2q
    rw [div_lt_iff₀ huu] at this
    linarith
  refine ⟨m, hlo, hhi, ?_⟩
  unfold f32_sqrt
  rw [if_neg (not_le.mpr hs)]
  simp only []
  rw [← hu, ← hn, ← hm]
  split_ifs with h1 h2 h3
  · exact Or.inl ⟨rfl, h1.le⟩
  · exact Or.inr ⟨rfl, h2.le⟩
  · exact Or.inl ⟨rfl, not_lt.mp h2⟩
  · exact Or.inr ⟨rfl, not_lt.mp h1⟩

theorem grid_step_le (m K : ℕ) (u s : ℚ) (hu : 0 < u) (hK : (K : ℚ) * u = 3 / 2)
    (hs : s ≤ 9 / 4) (hmid : ((m + 1 / 2) * u) * ((m + 1 / 2) * u) ≤ s) :
    ((m : ℚ) + 1) * u ≤ 3 / 2 := by
  have hmidnn : (0 : ℚ) ≤ (m + 1 / 2) * u := by positivity
  have hmid32 : (m + 1 / 2 : ℚ) * u ≤ 3 / 2 := by nlinarith
  rw [← hK] at hmid32 ⊢
  have h1 : (m + 1 / 2 : ℚ) ≤ K := le_of_mul_le_mul_right hmid32 hu
  have h2 : (m : ℚ) < K := by linarith
  have h3 : m < K := by exact_mod_cast h2
  have h4 : ((m + 1 : ℕ) : ℚ) ≤ K := by exact_mod_cast h3
  push_cast at h4
  exact mul_le_mul_of_nonneg_right h4 hu.le

theorem three_halves_on_grid (e : ℤ) (he : e ≤ 0) :
    ∃ K : ℕ, (K : ℚ) * 2 ^ (e - 23) = 3 / 2 := by
  obtain ⟨j, hj⟩ : ∃ j : ℕ, e = -(j : ℤ) := ⟨(-e).toNat, by rw [Int.toNat_of_nonneg (by omega)]; ring⟩
  refine ⟨3 * 2 ^ (j + 22), ?_⟩
  have h1 : (2 : ℚ) ^ (e - 23) = ((2 : ℚ) ^ (j + 23))⁻¹ := by
    rw [hj, show -(j : ℤ) - 23 = -((j + 23 : ℕ) : ℤ) by push_cast; ring, zpow_neg, zpow_natCast]
  rw [h1]
  push_cast
  have hp : (0 : ℚ) < 2 ^ (j + 22) := by positivity
  rw [pow_succ (2 : ℚ) (j + 22)]
  field_simp
  ring

theorem f32_sqrt_le_threshold (s : ℚ) (hs : s ≤ 9 / 4) : f32_sqrt s ≤ 3 / 2 := by
  rcases le_or_lt s 0 with h0 | h0
  · unfold f32_sqrt
    rw [if_pos h0]
    norm_num
  obtain ⟨m, hlo, hhi, hsel⟩ := f32_sqrt_spec s h0
  have hlog : Int.log 2 s < 2 := by
    rw [← Int.lt_zpow_iff_log_lt (by norm_num) h0]
    norm_num
    linarith
  have he : Int.log 2 s / 2 ≤ 0 := by omega
  obtain ⟨K, hK⟩ := three_halves_on_grid (Int.log 2 s / 2) he
  generalize (2 : ℚ) ^ (Int.log 2 s / 2 - 23) = u at hlo hhi hsel hK
  have hu : 0 < u := by
    rcases lt_or_le 0 u with h | h
    · exact h
    · exfalso
      have : (K : ℚ) * u ≤ 0 := mul_nonpos_of_nonneg_of_nonpos (by positivity) h
      linarith
  rcases hsel with ⟨hr, _⟩ | ⟨hr, hmid⟩
  · rw [hr]
    have hnn : (0 : ℚ) ≤ m * u := by positivity
    nlinarith
  · rw [hr]
    exact grid_step_le m K u s hu hK hs hmid

theorem grid_step_gt (m : ℕ) (s : ℚ)
    (hT : (25165825 / 16777216 : ℚ) * (25165825 / 16777216) < s)
    (hhi : s < ((m + 1) * (1 / 8388608)) * ((m + 1) * (1 / 8388608))) :
    12582912 ≤ m ∧
      (s ≤ ((m + 1 / 2) * (1 / 8388608)) * ((m + 1 / 2) * (1 / 8388608)) → 12582913 ≤ m) := by
  have h1 : (25165825 / 16777216 : ℚ) < (m + 1) * (1 / 8388608) := by
    by_contra hn
    have hn2 := not_lt.mp hn
    have hnn : (0 : ℚ) ≤ (m + 1) * (1 / 8388608) := by positivity
    have := mul_self_le_mul_self hnn hn2
    linarith
  have h2 : (12582912 : ℚ) < m + 1 := by linarith
  have h3 : 12582912 < m + 1 := by exact_mod_cast h2
  refine ⟨by omega, fun hle => ?_⟩
  have h4 : (25165825 / 16777216 : ℚ) < (m + 1 / 2) * (1 / 8388608) := by
    by_contra hn
    have hn2 := not_lt.mp hn
    have hnn : (0 : ℚ) ≤ (m + 1 / 2) * (1 / 8388608) := by positivity
    have := mul_self_le_mul_self hnn hn2
    linarith
  have h5 : (12582912 : ℚ) < m := by linarith
  have h6 : 12582912 < m := by exact_mod_cast h5
  omega

theorem f32_sqrt_gt_threshold (s : ℚ)
    (hT : (25165825 / 16777216 : ℚ) * (25165825 / 16777216) < s) : 3 / 2 < f32_sqrt s := by
  have h0 : 0 < s := lt_trans (by norm_num) hT
  obtain ⟨m, hlo, hhi, hsel⟩ := f32_sqrt_spec s h0
  have hlog0 : 0 ≤ Int.log 2 s := by
    rw [← Int.zpow_le_iff_le_log (by norm_num) h0]
    norm_num
    linarith
  rcases lt_or_le s 4 with h4 | h4
  · have hlog : Int.log 2 s < 2 := by
      rw [← Int.lt_zpow_iff_log_lt (by norm_num) h0]
      norm_num
      linarith
    have he : Int.log 2 s / 2 = 0 := by omega
    rw [he] at hlo hhi hsel
    have hu : (2 : ℚ) ^ ((0 : ℤ) - 23) = 1 / 8388608 := by norm_num
    rw [hu] at hlo hhi hsel
    obtain ⟨hm, hm'⟩ := grid_step_gt m s hT hhi
    rcases hsel with ⟨hr, hle⟩ | ⟨hr, _⟩
    · rw [hr]
      have : (12582913 : ℚ) ≤ m := by exact_mod_cast hm' hle
      linarith
    · rw [hr]
      have : (12582912 : ℚ) ≤ m := by exact_mod_cast hm
      linarith
  · have hlog : 2 ≤ Int.log 2 s := by
      rw [← Int.zpow_le_iff_le_log (by norm_num) h0]
      norm_num
      linarith
    have he : 1 ≤ Int.log 2 s / 2 := by omega
    have hpow : (2 : ℚ) ^ (2 * (Int.log 2 s / 2)) ≤ s := by
      have h1 : (2 : ℚ) ^ (Int.log 2 s) ≤ s := by
        exact_mod_cast Int.zpow_log_le_self (b := 2) (by norm_num) h0
      have h2 : (2 : ℚ) ^ (2 * (Int.log 2 s / 2)) ≤ 2 ^ (Int.log 2 s) :=
        zpow_le_zpow_right₀ (by norm_num) (by omega)
      linarith
    have hE2 : (2 : ℚ) ≤ 2 ^ (Int.log 2 s / 2) := by
      have := zpow_le_zpow_right₀ (a := (2 : ℚ)) (by norm_num) he
      simpa using this
    have hsq : (2 : ℚ) ^ (2 * (Int.log 2 s / 2))
        = 2 ^ (Int.log 2 s / 2) * 2 ^ (Int.log 2 s / 2) := by
      rw [two_mul, zpow_add₀ (by norm_num)]
    have hu : (2 : ℚ) ^ (Int.log 2 s / 2 - 23) = 2 ^ (Int.log 2 s / 2) * (1 / 8388608) := by
      rw [zpow_sub₀ (by norm_num)]
      norm_num
      ring
    rw [hsq] at hpow
    rw [hu] at hlo hhi hsel
    generalize (2 : ℚ) ^ (Int.log 2 s / 2) = E at hpow hE2 hlo hhi hsel
    have hm : 8388608 ≤ m := by
      have h1 : E < (m + 1) * (E * (1 / 8388608)) := by
        by_contra hn
        have hn2 := not_lt.mp hn
        have hnn : (0 : ℚ) ≤ (m + 1) * (E * (1 / 8388608)) := by positivity
        have := mul_self_le_mul_self hnn hn2
        linarith
      have h2 : (8388608 : ℚ) < m + 1 := by
        by_contra hn
        have hn2 := not_lt.mp hn
        nlinarith
      have h3 : 8388608 < m + 1 := by exact_mod_cast h2
      omega
    have hmq : (8388608 : ℚ) ≤ m := by exact_mod_cast hm
    have hbase : (2 : ℚ) ≤ m * (E * (1 / 8388608)) := by nlinarith
    rcases hsel with ⟨hr, _⟩ | ⟨hr, _⟩
    · rw [hr]; linarith
    · rw [hr]
      have : (0 : ℚ) ≤ E * (1 / 8388608) := by positivity
      nlinarith

theorem f32_eta_small : (2 : ℚ) ^ (-150 : ℤ) ≤ 1 / 2 ^ 100 := by
  norm_num

theorem f32_round_bounds (q : ℚ) (hq : 0 ≤ q) :
    0 ≤ f32_round q ∧
    f32_round q ≤ (1 + 1 / 16777216) * q + 2 ^ (-150 : ℤ) ∧
    (1 - 1 / 16777216) * q - 2 ^ (-150 : ℤ) ≤ f32_round q := by
  have h := f32_round_near q
  rw [abs_of_nonneg hq, abs_le] at h
  exact ⟨f32_round_nonneg q hq, by linarith [h.2], by linarith [h.1]⟩

theorem f32_round_sq_bounds (d : ℚ) :
    f32_round d * f32_round d ≤ (1 + 3 / 16777216) * (d * d) + 3 * 2 ^ (-150 : ℤ) ∧
    (1 - 3 / 16777216) * (d * d) - 2 ^ (-150 : ℤ) ≤ f32_round d * f32_round d := by
  have h := f32_round_near d
  have hs := f32_eta_small
  have hpos : (0 : ℚ) < 2 ^ (-150 : ℤ) := by positivity
  generalize (2 : ℚ) ^ (-150 : ℤ) = η at h hs hpos ⊢
  have hs2 : η ≤ 1 / 16777216 := le_trans hs (by norm_num)
  generalize f32_round d = a at h ⊢
  have hx : 0 ≤ |d| := abs_nonneg d
  have hxx : |d| * |d| = d * d := abs_mul_abs_self d
  obtain ⟨h1, h2⟩ := abs_le.mp h
  have hd1 := le_abs_self d
  have hd2 := neg_abs_le d
  generalize |d| = x at *
  -- a lies within `x / 2^24 + η` of `d`, and `d` is `x` or `-x`
  have hsq : (a - d) * (a - d) ≤ (x / 16777216 + η) * (x / 16777216 + η) := by
    have : |a - d| ≤ x / 16777216 + η := abs_le.mpr ⟨h1, h2⟩
    have h0 : 0 ≤ |a - d| := abs_nonneg _
    have := mul_self_le_mul_self h0 this
    rwa [abs_mul_abs_self] at this
  have hcross : -(x * (x / 16777216 + η)) ≤ d * (a - d) ∧
      d * (a - d) ≤ x * (x / 16777216 + η) := by
    have hb : |d * (a - d)| ≤ x * (x / 16777216 + η) := by
      rw [abs_mul]
      have hdx : |d| ≤ x := abs_le.mpr ⟨by linarith, hd1⟩
      have : |a - d| ≤ x / 16777216 + η := abs_le.mpr ⟨h1, h2⟩
      exact mul_le_mul hdx this (abs_nonneg _) hx
    exact abs_le.mp hb
  have hexp : a * a = d * d + 2 * (d * (a - d)) + (a - d) * (a - d) := by ring
  have hxe : 2 * x * η ≤ η * (x * x + 1) := by nlinarith [mul_self_nonneg (x - 1)]
  have hxeu : 0 ≤ x * η := by positivity
  have hee : η * η ≤ η / 16777216 := by nlinarith
  have hnn : 0 ≤ (a - d) * (a - d) := mul_self_nonneg _
  have hxx0 : 0 ≤ x * x := by positivity
  constructor
  · nlinarith
  · nlinarith

theorem f32_dot_self_bounds (dx dy dz : ℚ) :
    Vec3.f32_dot ⟨f32_round dx, f32_round dy, f32_round dz⟩
        ⟨f32_round dx, f32_round dy, f32_round dz⟩
      ≤ (1 + 7 / 16777216) * (dx * dx + dy * dy + dz * dz) + 1 / 2 ^ 90 ∧
    (1 - 7 / 16777216) * (dx * dx + dy * dy + dz * dz) - 1 / 2 ^ 90
      ≤ Vec3.f32_dot ⟨f32_round dx, f32_round dy, f32_round dz⟩
          ⟨f32_round dx, f32_round dy, f32_round dz⟩ := by
  obtain ⟨hAu, hAl⟩ := f32_round_sq_bounds dx
  obtain ⟨hBu, hBl⟩ := f32_round_sq_bounds dy
  obtain ⟨hCu, hCl⟩ := f32_round_sq_bounds dz
  have hA0 : 0 ≤ f32_round dx * f32_round dx := mul_self_nonneg _
  have hB0 : 0 ≤ f32_round dy * f32_round dy := mul_self_nonneg _
  have hC0 : 0 ≤ f32_round dz * f32_round dz := mul_self_nonneg _
  obtain ⟨hx0, hxu, hxl⟩ := f32_round_bounds _ hA0
  obtain ⟨hy0, hyu, hyl⟩ := f32_round_bounds _ hB0
  obtain ⟨hz0, hzu, hzl⟩ := f32_round_bounds _ hC0
  obtain ⟨ht0, htu, htl⟩ := f32_round_bounds
    (f32_round (f32_round dx * f32_round dx) + f32_round (f32_round dy * f32_round dy))
    (add_nonneg hx0 hy0)
  obtain ⟨hs0, hsu, hsl⟩ := f32_round_bounds
    (f32_round (f32_round (f32_round dx * f32_round dx) + f32_round (f32_round dy * f32_round dy))
      + f32_round (f32_round dz * f32_round dz))
    (add_nonneg ht0 hz0)
  have hη := f32_eta_small
  have hηpos : (0 : ℚ) < 2 ^ (-150 : ℤ) := by positivity
  have hdx0 : 0 ≤ dx * dx := mul_self_nonneg _
  have hdy0 : 0 ≤ dy * dy := mul_self_nonneg _
  have hdz0 : 0 ≤ dz * dz := mul_self_nonneg _
  unfold Vec3.f32_dot
  simp only []
  generalize (2 : ℚ) ^ (-150 : ℤ) = η at *
  generalize f32_round (f32_round (f32_round (f32_round dx * f32_round dx)
      + f32_round (f32_round dy * f32_round dy)) + f32_round (f32_round dz * f32_round dz)) = S at *
  generalize f32_round (f32_round (f32_round dx * f32_round dx)
      + f32_round (f32_round dy * f32_round dy)) = t at *
  generalize f32_round (f32_round dx * f32_round dx) = sx at *
  generalize f32_round (f32_round dy * f32_round dy) = sy at *
  generalize f32_round (f32_round dz * f32_round dz) = sz at *
  generalize f32_round dx * f32_round dx = A at *
  generalize f32_round dy * f32_round dy = B at *
  generalize f32_round dz * f32_round dz = C at *
  generalize dx * dx = X at *
  generalize dy * dy = Y at *
  generalize dz * dz = Z at *
  have h90 : (1 : ℚ) / 2 ^ 100 * 1024 = 1 / 2 ^ 90 := by norm_num
  constructor
  · linarith
  · linarith

theorem f32_distance_eq (p0 p1 : Vec3) :
    Vec3.f32_distance p0 p1 =
      f32_sqrt (Vec3.f32_dot
        ⟨f32_round (p1.x - p0.x), f32_round (p1.y - p0.y), f32_round (p1.z - p0.z)⟩
        ⟨f32_round (p1.x - p0.x), f32_round (p1.y - p0.y), f32_round (p1.z - p0.z)⟩) := rfl

theorem distance_sq_eq (p0 p1 : Vec3) :
    Vec3.distance_sq p0 p1 =
      (p1.x - p0.x) * (p1.x - p0.x) + (p1.y - p0.y) * (p1.y - p0.y)
        + (p1.z - p0.z) * (p1.z - p0.z) := by
  unfold Vec3.distance_sq
  ring

theorem f32_distance_le_of_close (p0 p1 : Vec3)
    (h : Vec3.distance_sq p0 p1 ≤ 9 / 4 * (1 - 1 / 2 ^ 20)) :
    Vec3.f32_distance p0 p1 ≤ 3 / 2 := by
  rw [f32_distance_eq]
  apply f32_sqrt_le_threshold
  have hb := (f32_dot_self_bounds (p1.x - p0.x) (p1.y - p0.y) (p1.z - p0.z)).1
  rw [← distance_sq_eq] at hb
  have h90 : (1 : ℚ) / 2 ^ 90 ≤ 1 / 2 ^ 40 := by norm_num
  generalize Vec3.distance_sq p0 p1 = D at h hb
  norm_num at h hb h90 ⊢
  linarith

theorem f32_distance_gt_of_far (p0 p1 : Vec3)
    (h : 9 / 4 * (1 + 1 / 2 ^ 20) ≤ Vec3.distance_sq p0 p1) :
    3 / 2 < Vec3.f32_distance p0 p1 := by
  rw [f32_distance_eq]
  apply f32_sqrt_gt_threshold
  have hb := (f32_dot_self_bounds (p1.x - p0.x) (p1.y - p0.y) (p1.z - p0.z)).2
  rw [← distance_sq_eq] at hb
  have h90 : (1 : ℚ) / 2 ^ 90 ≤ 1 / 2 ^ 40 := by norm_num
  generalize Vec3.distance_sq p0 p1 = D at h hb
  norm_num at h hb h90 ⊢
  linarith

theorem f32_distance_grazing : Vec3.f32_distance ⟨0, 0, 0⟩ ⟨3 / 2, 1 / 8192, 0⟩ = 3 / 2 := by
  have r1 : f32_round (3 / 2) = 3 / 2 := by
    rw [f32_round_eval (3 / 2) 0 12582912 (by norm_num) (by norm_num [abs_of_pos])
      (by norm_num [abs_of_pos]) (by norm_num) (by norm_num)]
    norm_num
  have r2 : f32_round (1 / 8192) = 1 / 8192 := by
    rw [f32_round_eval (1 / 8192) (-13) 8388608 (by norm_num) (by norm_num [abs_of_pos])
      (by norm_num [abs_of_pos]) (by norm_num) (by norm_num)]
    norm_num
  have r3 : f32_round (9 / 4) = 9 / 4 := by
    rw [f32_round_eval (9 / 4) 1 9437184 (by norm_num) (by norm_num [abs_of_pos])
      (by norm_num [abs_of_pos]) (by norm_num) (by norm_num)]
    norm_num
  have r4 : f32_round (1 / 67108864) = 1 / 67108864 := by
    rw [f32_round_eval (1 / 67108864) (-26) 8388608 (by norm_num) (by norm_num [abs_of_pos])
      (by norm_num [abs_of_pos]) (by norm_num) (by norm_num)]
    norm_num
  have r5 : f32_round (9 / 4 + 1 / 67108864) = 9 / 4 := by
    rw [f32_round_eval (9 / 4 + 1 / 67108864) 1 9437184 (by norm_num)
      (by norm_num [abs_of_pos]) (by norm_num [abs_of_pos]) (by norm_num) (by norm_num)]
    norm_num
  have r6 : f32_sqrt (9 / 4) = 3 / 2 := by
    rw [f32_sqrt_eval (9 / 4) 0 12582912 (by norm_num) (by norm_num) (by norm_num)
      (by norm_num) (by norm_num)]
    norm_num
  have e1 : (3 / 2 : ℚ) * (3 / 2) = 9 / 4 := by norm_num
  have e2 : (1 / 8192 : ℚ) * (1 / 8192) = 1 / 67108864 := by norm_num
  simp only [Vec3.f32_distance, Vec3.f32_length, Vec3.f32_dot, Vec3.f32_sub, sub_zero, r1, r2,
    f32_round_zero, e1, e2, r3, r4, r5, mul_zero, add_zero, r6]

theorem f32_distance_spinner :
    Vec3.f32_distance ⟨0, 0, 0⟩ ⟨1, -1, 0⟩ = 11863283 / 8388608 := by
  have r1 : f32_round 1 = 1 := by
    rw [f32_round_eval 1 0 8388608 (by norm_num) (by norm_num) (by norm_num) (by norm_num)
      (by norm_num)]
    norm_num
  have r2 : f32_round (-1) = -1 := by
    unfold f32_round f32_ulp
    rw [abs_neg, int_log_two_eq |1| 0 (by norm_num) (by norm_num)]
    rw [round_half_even_eq _ (-8388608) (by norm_num) (by norm_num)]
    norm_num
  have r3 : f32_round 2 = 2 := by
    rw [f32_round_eval 2 1 8388608 (by norm_num) (by norm_num) (by norm_num) (by norm_num)
      (by norm_num)]
    norm_num
  have r4 : f32_sqrt 2 = 11863283 / 8388608 := by
    rw [f32_sqrt_eval 2 0 11863283 (by norm_num) (by norm_num) (by norm_num) (by norm_num)
      (by norm_num)]
    norm_num
  have e1 : (1 : ℚ) + 1 = 2 := by norm_num
  simp only [Vec3.f32_distance, Vec3.f32_length, Vec3.f32_dot, Vec3.f32_sub, sub_zero, r1, r2,
    f32_round_zero, mul_one, neg_mul_neg, e1, mul_zero, add_zero, r3, r4]

/-- C4, as amended. Handling one attack key-down event retires (deactivates
and moves to the sentinel position) exactly the enemies that were active and
whose distance from the player, as `glm::distance` computes it in binary32, is
at most `1.5f`, whatever the collision test says of them; every other enemy,
the player and the rest of the state are left unchanged.  In Euclidean terms:
an active enemy at squared distance at most `2.25 * (1 - 2 ^ (-20))` is
retired, and an enemy at squared distance at least `2.25 * (1 + 2 ^ (-20))` is
left unchanged. -/
theorem attack_event_retires_float_nearby (w : World) (i : Fin ENEMY_COUNT) :
    ((w.g_game_state.enemies i).is_active = true ∧
        Vec3.f32_distance w.g_game_state.player.position
          (w.g_game_state.enemies i).position ≤ 3 / 2 →
      (handle_event w (Event.SDL_KEYDOWN Keycode.SDLK_a)).g_game_state.enemies i =
        { w.g_game_state.enemies i with is_active := false, position := sentinel_position }) ∧
    (¬ ((w.g_game_state.enemies i).is_active = true ∧
        Vec3.f32_distance w.g_game_state.player.position
          (w.g_game_state.enemies i).position ≤ 3 / 2) →
      (handle_event w (Event.SDL_KEYDOWN Keycode.SDLK_a)).g_game_state.enemies i =
        w.g_game_state.enemies i) ∧
    ((w.g_game_state.enemies i).is_active = true ∧
        Vec3.distance_sq w.g_game_state.player.position (w.g_game_state.enemies i).position
          ≤ 9 / 4 * (1 - 1 / 2 ^ 20) →
      (handle_event w (Event.SDL_KEYDOWN Keycode.SDLK_a)).g_game_state.enemies i =
        { w.g_game_state.enemies i with is_active := false, position := sentinel_position }) ∧
    (9 / 4 * (1 + 1 / 2 ^ 20)
        ≤ Vec3.distance_sq w.g_game_state.player.position (w.g_game_state.enemies i).position →
      (handle_event w (Event.SDL_KEYDOWN Keycode.SDLK_a)).g_game_state.enemies i =
        w.g_game_state.enemies i) ∧
    (handle_event w (Event.SDL_KEYDOWN Keycode.SDLK_a)).g_game_state.player
      = w.g_game_state.player ∧
    (handle_event w (Event.SDL_KEYDOWN Keycode.SDLK_a)).g_game_state.map = w.g_game_state.map ∧
    (handle_event w (Event.SDL_KEYDOWN Keycode.SDLK_a)).g_app_status = w.g_app_status := by
  have hev : (handle_event w (Event.SDL_KEYDOWN Keycode.SDLK_a)).g_game_state
      = attack w.g_game_state := rfl
  have hnear : is_enemy_nearby w.g_game_state.player (w.g_game_state.enemies i) = true ↔
      Vec3.f32_distance w.g_game_state.player.position
        (w.g_game_state.enemies i).position ≤ 3 / 2 := by
    simp [is_enemy_nearby, proximity_threshold]
  have hyes : (w.g_game_state.enemies i).is_active = true ∧
      is_enemy_nearby w.g_game_state.player (w.g_game_state.enemies i) = true →
      attack_enemy w.g_game_state.player (w.g_game_state.enemies i) =
        { w.g_game_state.enemies i with
            is_active := false, position := sentinel_position } := by
    rintro ⟨ha, hn⟩
    simp [attack_enemy, ha, hn, retired, Entity.deactivate, Entity.set_position]
  have hno : ¬ ((w.g_game_state.enemies i).is_active = true ∧
      is_enemy_nearby w.g_game_state.player (w.g_game_state.enemies i) = true) →
      attack_enemy w.g_game_state.player (w.g_game_state.enemies i)
        = w.g_game_state.enemies i := by
    intro h
    have : ((w.g_game_state.enemies i).is_active &&
        is_enemy_nearby w.g_game_state.player (w.g_game_state.enemies i)) = false := by
      simpa [Bool.and_eq_true] using h
    simp [attack_enemy, this]
  rw [hev, attack_enemies, attack_player, ← hnear]
  refine ⟨hyes, hno, ?_, ?_, rfl, ?_, rfl⟩
  · rintro ⟨ha, hd⟩
    exact hyes ⟨ha, hnear.mpr (f32_distance_le_of_close _ _ hd)⟩
  · intro hd
    refine hno (fun h => ?_)
    have h1 := hnear.mp h.2
    have h2 := f32_distance_gt_of_far _ _ hd
    linarith
  · rw [attack_eq]

/-- At the start of the game the spinner is within reach: its binary32
distance to the player is the binary32 square root of 2, and the attack
retires it. -/
theorem attack_event_retires_float_nearby_witness :
    ((initialise.g_game_state.enemies 0).is_active = true ∧
        Vec3.f32_distance initialise.g_game_state.player.position
          (initialise.g_game_state.enemies 0).position ≤ 3 / 2) ∧
    (handle_event initialise (Event.SDL_KEYDOWN Keycode.SDLK_a)).g_game_state.enemies 0 =
      { initialise.g_game_state.enemies 0 with
          is_active := false, position := sentinel_position } := by
  have hnear : (initialise.g_game_state.enemies 0).is_active = true ∧
      Vec3.f32_distance initialise.g_game_state.player.position
        (initialise.g_game_state.enemies 0).position ≤ 3 / 2 := by
    refine ⟨rfl, ?_⟩
    have hd : Vec3.f32_distance initialise.g_game_state.player.position
        (initialise.g_game_state.enemies 0).position = 11863283 / 8388608 :=
      f32_distance_spinner
    rw [hd]
    norm_num
  exact ⟨hnear, (attack_event_retires_float_nearby initialise 0).1 hnear⟩

/-- C4, the claim as stated fails: with the player at the origin and the
active spinner at `(1.5, 2 ^ (-13), 0)`, the squared distance is
`2.25 + 2 ^ (-26)`, so the Euclidean distance exceeds 1.5; yet binary32 rounds
the sum of squares to `2.25`, `glm::distance` returns `1.5f`, and the attack
retires the spinner. -/
theorem attack_event_retires_beyond_reach :
    (spinner_grazing.g_game_state.enemies 0).is_active = true ∧
    225 / 100 < Vec3.distance_sq spinner_grazing.g_game_state.player.position
      (spinner_grazing.g_game_state.enemies 0).position ∧
    3 / 2 < Real.sqrt ((Vec3.distance_sq spinner_grazing.g_game_state.player.position
      (spinner_grazing.g_game_state.enemies 0).position : ℚ) : ℝ) ∧
    is_enemy_nearby spinner_grazing.g_game_state.player
      (spinner_grazing.g_game_state.enemies 0) = true ∧
    ((handle_event spinner_grazing
      (Event.SDL_KEYDOWN Keycode.SDLK_a)).g_game_state.enemies 0).is_active = false ∧
    ((handle_event spinner_grazing
      (Event.SDL_KEYDOWN Keycode.SDLK_a)).g_game_state.enemies 0).position = sentinel_position ∧
    (handle_event spinner_grazing (Event.SDL_KEYDOWN Keycode.SDLK_a)).g_game_state.enemies 0
      ≠ spinner_grazing.g_game_state.enemies 0 := by
  have hpos : spinner_grazing.g_game_state.player.position = ⟨0, 0, 0⟩ := rfl
  have hen : (spinner_grazing.g_game_state.enemies 0).position = ⟨3 / 2, 1 / 8192, 0⟩ := rfl
  have hact : (spinner_grazing.g_game_state.enemies 0).is_active = true := rfl
  have hsq : Vec3.distance_sq spinner_grazing.g_game_state.player.position
      (spinner_grazing.g_game_state.enemies 0).position = 9 / 4 + 1 / 67108864 := by
    rw [hpos, hen]
    norm_num [Vec3.distance_sq]
  have hnear : is_enemy_nearby spinner_grazing.g_game_state.player
      (spinner_grazing.g_game_state.enemies 0) = true := by
    unfold is_enemy_nearby
    rw [hpos, hen, f32_distance_grazing]
    norm_num [proximity_threshold]
  have hev : (handle_event spinner_grazing (Event.SDL_KEYDOWN Keycode.SDLK_a)).g_game_state.enemies 0
      = retired (spinner_grazing.g_game_state.enemies 0) := by
    have h0 : (handle_event spinner_grazing (Event.SDL_KEYDOWN Keycode.SDLK_a)).g_game_state
        = attack spinner_grazing.g_game_state := rfl
    rw [h0, attack_enemies]
    simp [attack_enemy, hact, hnear]
  refine ⟨hact, ?_, ?_, hnear, ?_, ?_, ?_⟩
  · rw [hsq]; norm_num
  · rw [hsq, Real.lt_sqrt (by norm_num)]
    norm_num
  · rw [hev]; rfl
  · rw [hev]; rfl
  · rw [hev]
    intro h
    have h2 : (retired (spinner_grazing.g_game_state.enemies 0)).is_active
        = (spinner_grazing.g_game_state.enemies 0).is_active := by rw [h]
    rw [hact] at h2
    exact Bool.noConfusion h2

theorem all_enemies_defeated_iff (g : GameState) :
    all_enemies_defeated g = true ↔ ∀ i : Fin ENEMY_COUNT, (g.enemies i).is_active = false := by
  unfold all_enemies_defeated
  rw [for_each_enemy_eq, Fin.forall_fin_succ, Fin.forall_fin_succ, Fin.forall_fin_succ]
  cases h0 : (g.enemies 0).is_active <;> cases h1 : (g.enemies 1).is_active <;>
    cases h2 : (g.enemies 2).is_active <;> simp_all

/-- C5, as amended. `render` decides on the player first: if the player is
not active it draws "YOU LOSE" and sets the status to `TERMINATED`; if the
player is active and no enemy is active it draws "YOU WIN" and sets
`TERMINATED`; if the player is active and some enemy is active it draws no
text and leaves the status unchanged. -/
theorem render_decision (w : World) :
    (w.g_game_state.player.is_active = false →
      (render w).g_text = some "YOU LOSE" ∧ (render w).g_app_status = AppStatus.TERMINATED) ∧
    (w.g_game_state.player.is_active = true →
      (∀ i : Fin ENEMY_COUNT, (w.g_game_state.enemies i).is_active = false) →
      (render w).g_text = some "YOU WIN" ∧ (render w).g_app_status = AppStatus.TERMINATED) ∧
    (w.g_game_state.player.is_active = true →
      (∃ i : Fin ENEMY_COUNT, (w.g_game_state.enemies i).is_active = true) →
      (render w).g_text = none ∧ (render w).g_app_status = w.g_app_status) := by
  refine ⟨?_, ?_, ?_⟩
  · intro hp
    simp [render, hp]
  · intro hp hall
    have := (all_enemies_defeated_iff w.g_game_state).mpr hall
    simp [render, hp, this]
  · rintro hp ⟨i, hi⟩
    have : all_enemies_defeated w.g_game_state = false := by
      rw [← Bool.not_eq_true, all_enemies_defeated_iff]
      intro hall
      rw [hall i] at hi
      exact Bool.noConfusion hi
    simp [render, hp, this]

/-- The three outcomes at concrete states: the player inactive, the player
active with every enemy retired, and the initial state. -/
theorem render_decision_witness :
    (all_inactive.g_game_state.player.is_active = false ∧
      (render all_inactive).g_text = some "YOU LOSE" ∧
      (render all_inactive).g_app_status = AppStatus.TERMINATED) ∧
    (enemies_cleared.g_game_state.player.is_active = true ∧
      (enemies_cleared.g_game_state.enemies 0).is_active = false ∧
      (enemies_cleared.g_game_state.enemies 1).is_active = false ∧
      (enemies_cleared.g_game_state.enemies 2).is_active = false ∧
      (render enemies_cleared).g_text = some "YOU WIN" ∧
      (render enemies_cleared).g_app_status = AppStatus.TERMINATED) ∧
    (initialise.g_game_state.player.is_active = true ∧
      (initialise.g_game_state.enemies 0).is_active = true ∧
      (render initialise).g_text = none ∧
      (render initialise).g_app_status = AppStatus.RUNNING) :=
  ⟨⟨rfl, (render_decision all_inactive).1 rfl⟩,
    ⟨rfl, rfl, rfl, rfl, (render_decision enemies_cleared).2.1 rfl (fun _ => rfl)⟩,
    ⟨rfl, rfl, (render_decision initialise).2.2 rfl ⟨0, rfl⟩⟩⟩

/-- C5, the claim as stated fails: in a state where no enemy is active and
the player is not active either, `render` draws "YOU LOSE", not "YOU WIN". -/
theorem render_all_inactive_reports_loss :
    (all_inactive.g_game_state.enemies 0).is_active = false ∧
    (all_inactive.g_game_state.enemies 1).is_active = false ∧
    (all_inactive.g_game_state.enemies 2).is_active = false ∧
    (render all_inactive).g_text = some "YOU LOSE" ∧
    (render all_inactive).g_text ≠ some "YOU WIN" := by
  refine ⟨rfl, rfl, rfl, rfl, ?_⟩
  have h : (render all_inactive).g_text = some "YOU LOSE" := rfl
  rw [h]
  decide

/-- C9. Handling a jump key-down event calls `jump` and plays the jump sound
once when the player's `collided_bottom` is set, and otherwise changes
nothing at all: airborne, the velocity and every other field are as before. -/
theorem jump_event_gated (w : World) :
    (w.g_game_state.player.collided_bottom = true →
      (handle_event w (Event.SDL_KEYDOWN Keycode.SDLK_SPACE)).g_game_state.player
        = w.g_game_state.player.jump ∧
      (handle_event w (Event.SDL_KEYDOWN Keycode.SDLK_SPACE)).g_game_state.jump_sfx_plays
        = w.g_game_state.jump_sfx_plays + 1) ∧
    (w.g_game_state.player.collided_bottom = false →
      handle_event w (Event.SDL_KEYDOWN Keycode.SDLK_SPACE) = w) := by
  constructor
  · intro h
    simp [handle_event, h]
  · intro h
    simp [handle_event, h]

/-- Airborne at the start, the jump key does nothing; on the ground it jumps
and plays the sound once. -/
theorem jump_event_gated_witness :
    (initialise.g_game_state.player.collided_bottom = false ∧
      handle_event initialise (Event.SDL_KEYDOWN Keycode.SDLK_SPACE) = initialise) ∧
    (grounded.g_game_state.player.collided_bottom = true ∧
      (handle_event grounded (Event.SDL_KEYDOWN Keycode.SDLK_SPACE)).g_game_state.player
        = grounded.g_game_state.player.jump ∧
      (handle_event grounded (Event.SDL_KEYDOWN Keycode.SDLK_SPACE)).g_game_state.jump_sfx_plays
        = grounded.g_game_state.jump_sfx_plays + 1) :=
  ⟨⟨rfl, (jump_event_gated initialise).2 rfl⟩, ⟨rfl, (jump_event_gated grounded).1 rfl⟩⟩


theorem handle_event_movement (w : World) (ev : Event) :
    (handle_event w ev).g_game_state.player.movement = w.g_game_state.player.movement := by
  cases ev with
  | SDL_QUIT => rfl
  | SDL_WINDOWEVENT_CLOSE => rfl
  | other => rfl
  | SDL_KEYDOWN sym =>
    cases sym with
    | SDLK_q => rfl
    | other => rfl
    | SDLK_a => simp only [handle_event, attack_player]
    | SDLK_SPACE =>
      simp only [handle_event]
      split_ifs <;> rfl

theorem foldl_handle_event_movement (events : List Event) :
    ∀ w : World, (events.foldl handle_event w).g_game_state.player.movement
      = w.g_game_state.player.movement := by
  induction events with
  | nil => intro w; rfl
  | cons ev rest ih =>
    intro w
    rw [List.foldl_cons, ih, handle_event_movement]

theorem process_input_movement_eq (ops : EntityOps) (events : List Event) (key_state : KeyState)
    (w : World) :
    (process_input ops events key_state w).g_game_state.player.movement
      = ⟨intent_x key_state, 0, 0⟩ := by
  have h := foldl_handle_event_movement events
    { w with g_game_state :=
        { w.g_game_state with player := w.g_game_state.player.set_movement Vec3.zero } }
  simp only [process_input]
  generalize List.foldl handle_event _ events = w2 at h ⊢
  have h0 : w2.g_game_state.player.movement = ⟨0, 0, 0⟩ := h
  cases hl : key_state.SDL_SCANCODE_LEFT <;> cases hr : key_state.SDL_SCANCODE_RIGHT <;>
    norm_num [h0, intent_x, hl, hr, Entity.move_left, Entity.move_right, Vec3.length_sq]

/-- C8. After `process_input`, whatever the queued events and the keys held,
the player's movement has `x` in `{-1, 0, 1}` and `y = z = 0`, so its length is
at most 1; with both left and right held, `x = -1`. -/
theorem process_input_intent_bound (ops : EntityOps) (events : List Event)
    (key_state : KeyState) (w : World) :
    ((process_input ops events key_state w).g_game_state.player.movement.x = -1 ∨
      (process_input ops events key_state w).g_game_state.player.movement.x = 0 ∨
      (process_input ops events key_state w).g_game_state.player.movement.x = 1) ∧
    (process_input ops events key_state w).g_game_state.player.movement.y = 0 ∧
    (process_input ops events key_state w).g_game_state.player.movement.z = 0 ∧
    Vec3.length_sq (process_input ops events key_state w).g_game_state.player.movement ≤ 1 ∧
    Real.sqrt ((Vec3.length_sq
      (process_input ops events key_state w).g_game_state.player.movement : ℚ) : ℝ) ≤ 1 ∧
    (key_state.SDL_SCANCODE_LEFT = true → key_state.SDL_SCANCODE_RIGHT = true →
      (process_input ops events key_state w).g_game_state.player.movement.x = -1) := by
  rw [process_input_movement_eq]
  have hlen : Vec3.length_sq ⟨intent_x key_state, 0, 0⟩ ≤ 1 := by
    unfold intent_x Vec3.length_sq
    split_ifs <;> norm_num
  refine ⟨?_, rfl, rfl, hlen, ?_, ?_⟩
  · unfold intent_x
    split_ifs <;> simp
  · rw [Real.sqrt_le_one]
    exact_mod_cast hlen
  · intro hl _
    simp [intent_x, hl]

/-- With both arrow keys held, after a jump and an attack were handled, the
intent points left. -/
theorem process_input_intent_bound_witness :
    (process_input sample_ops [Event.SDL_KEYDOWN Keycode.SDLK_SPACE, Event.SDL_KEYDOWN Keycode.SDLK_a]
      ⟨true, true⟩ grounded).g_game_state.player.movement.x = -1 :=
  (process_input_intent_bound sample_ops
    [Event.SDL_KEYDOWN Keycode.SDLK_SPACE, Event.SDL_KEYDOWN Keycode.SDLK_a]
    ⟨true, true⟩ grounded).2.2.2.2.2 rfl rfl


theorem handle_event_inactive_enemy (w : World) (ev : Event) (i : Fin ENEMY_COUNT)
    (h : (w.g_game_state.enemies i).is_active = false) :
    (handle_event w ev).g_game_state.enemies i = w.g_game_state.enemies i := by
  cases ev with
  | SDL_QUIT => rfl
  | SDL_WINDOWEVENT_CLOSE => rfl
  | other => rfl
  | SDL_KEYDOWN sym =>
    cases sym with
    | SDLK_q => rfl
    | other => rfl
    | SDLK_a =>
      simp only [handle_event, attack_enemies]
      simp [attack_enemy, h]
    | SDLK_SPACE =>
      simp only [handle_event]
      split_ifs <;> rfl

theorem foldl_handle_event_inactive_enemy (events : List Event) (i : Fin ENEMY_COUNT) :
    ∀ w : World, (w.g_game_state.enemies i).is_active = false →
      (events.foldl handle_event w).g_game_state.enemies i = w.g_game_state.enemies i := by
  induction events with
  | nil => intro w _; rfl
  | cons ev rest ih =>
    intro w h
    have h1 := handle_event_inactive_enemy w ev i h
    rw [List.foldl_cons, ih (handle_event w ev) (by rw [h1]; exact h), h1]

theorem process_input_inactive_enemy (ops : EntityOps) (events : List Event)
    (key_state : KeyState) (w : World) (i : Fin ENEMY_COUNT)
    (h : (w.g_game_state.enemies i).is_active = false) :
    (process_input ops events key_state w).g_game_state.enemies i = w.g_game_state.enemies i := by
  have h1 := foldl_handle_event_inactive_enemy events i
    { w with g_game_state :=
        { w.g_game_state with player := w.g_game_state.player.set_movement Vec3.zero } } h
  simp only [process_input]
  generalize List.foldl handle_event _ events = w2 at h1 ⊢
  rw [← h1]
  split_ifs <;> rfl

theorem tick_inactive_enemy (ops : EntityOps) (g : GameState) (i : Fin ENEMY_COUNT)
    (h : (g.enemies i).is_active = false) : (tick ops g).enemies i = g.enemies i := by
  rw [tick_enemies]
  simp [tick_enemy, h]

theorem iterate_tick_inactive_enemy (ops : EntityOps) (i : Fin ENEMY_COUNT) (n : Nat) :
    ∀ g : GameState, (g.enemies i).is_active = false →
      ((tick ops)^[n] g).enemies i = g.enemies i := by
  induction n with
  | zero => intro g _; rfl
  | succ k ih =>
    intro g h
    have h1 := tick_inactive_enemy ops g i h
    rw [Function.iterate_succ_apply, ih (tick ops g) (by rw [h1]; exact h), h1]

theorem update_loop_iterate (ops : EntityOps) (d : ℚ) (g : GameState) :
    ∃ n : Nat, update_loop ops d g = (d - n * FIXED_TIMESTEP, (tick ops)^[n] g) := by
  by_cases hd : d < FIXED_TIMESTEP
  · refine ⟨0, ?_⟩
    rw [update_loop_eq, if_neg (not_le.mpr hd)]
    simp
  · have hF := FIXED_TIMESTEP_pos
    have hd0 : 0 ≤ d := by linarith
    obtain ⟨hlo, hhi⟩ := floor_bounds d hd0
    exact ⟨_, update_loop_spec ops _ d g hlo hhi⟩

theorem update_inactive_enemy (ops : EntityOps) (sdl_ticks : ℚ) (w : World)
    (i : Fin ENEMY_COUNT) (h : (w.g_game_state.enemies i).is_active = false) :
    (update ops sdl_ticks w).g_game_state.enemies i = w.g_game_state.enemies i := by
  simp only [update]
  split_ifs
  · rfl
  · obtain ⟨n, hn⟩ := update_loop_iterate ops
      (sdl_ticks / MILLISECONDS_IN_SECOND - w.g_previous_ticks + w.g_accumulator) w.g_game_state
    simp only [hn]
    exact iterate_tick_inactive_enemy ops i n w.g_game_state h

theorem frame_inactive_enemy (ops : EntityOps) (inp : FrameInput) (w : World)
    (i : Fin ENEMY_COUNT) (h : (w.g_game_state.enemies i).is_active = false) :
    (frame ops inp w).g_game_state.enemies i = w.g_game_state.enemies i := by
  have h1 := process_input_inactive_enemy ops inp.events inp.key_state w i h
  have h2 := update_inactive_enemy ops inp.sdl_ticks
    (process_input ops inp.events inp.key_state w) i (by rw [h1]; exact h)
  unfold frame
  rw [render_game_state, h2, h1]

theorem main_loop_inactive_enemy (ops : EntityOps) (i : Fin ENEMY_COUNT)
    (inputs : List FrameInput) :
    ∀ w : World, (w.g_game_state.enemies i).is_active = false →
      (main_loop ops inputs w).g_game_state.enemies i = w.g_game_state.enemies i := by
  induction inputs with
  | nil => intro w _; rfl
  | cons inp rest ih =>
    intro w h
    simp only [main_loop]
    split_ifs
    · have h1 := frame_inactive_enemy ops inp w i h
      rw [ih (frame ops inp w) (by rw [h1]; exact h), h1]
    · rfl

/-- C6. Deactivation is terminal: an enemy that is inactive before a frame is,
after the frame and after any run of frames of the main loop, exactly as it
was, so it is still inactive and its position has not changed; this holds
whatever `Entity::update` and `check_collision` do with the entities they are
handed, since an inactive enemy is handed to neither. -/
theorem inactive_enemy_stays_put (ops : EntityOps) (w : World) (i : Fin ENEMY_COUNT)
    (h : (w.g_game_state.enemies i).is_active = false) :
    (∀ inp : FrameInput,
      (frame ops inp w).g_game_state.enemies i = w.g_game_state.enemies i ∧
      ((frame ops inp w).g_game_state.enemies i).is_active = false ∧
      ((frame ops inp w).g_game_state.enemies i).position
        = (w.g_game_state.enemies i).position) ∧
    (∀ inputs : List FrameInput,
      (main_loop ops inputs w).g_game_state.enemies i = w.g_game_state.enemies i ∧
      ((main_loop ops inputs w).g_game_state.enemies i).is_active = false ∧
      ((main_loop ops inputs w).g_game_state.enemies i).position
        = (w.g_game_state.enemies i).position) := by
  constructor
  · intro inp
    have h1 := frame_inactive_enemy ops inp w i h
    exact ⟨h1, by rw [h1]; exact h, by rw [h1]⟩
  · intro inputs
    have h1 := main_loop_inactive_enemy ops i inputs w h
    exact ⟨h1, by rw [h1]; exact h, by rw [h1]⟩

/-- The spinner, switched off next to the player, comes out of a frame with an
attack, three ticks and a render exactly as it was. -/
theorem inactive_enemy_stays_put_witness :
    (spinner_off.g_game_state.enemies 0).is_active = false ∧
    is_enemy_nearby spinner_off.g_game_state.player (spinner_off.g_game_state.enemies 0) = true ∧
    (frame sample_ops busy_frame spinner_off).g_game_state.enemies 0
      = spinner_off.g_game_state.enemies 0 ∧
    (main_loop sample_ops [busy_frame, busy_frame] spinner_off).g_game_state.enemies 0
      = spinner_off.g_game_state.enemies 0 := by
  refine ⟨rfl, ?_, ((inactive_enemy_stays_put sample_ops spinner_off 0 rfl).1 busy_frame).1,
    ((inactive_enemy_stays_put sample_ops spinner_off 0 rfl).2 [busy_frame, busy_frame]).1⟩
  have hd : Vec3.f32_distance spinner_off.g_game_state.player.position
      (spinner_off.g_game_state.enemies 0).position = 11863283 / 8388608 :=
    f32_distance_spinner
  unfold is_enemy_nearby
  rw [hd]
  norm_num [proximity_threshold]

/-- C7. The array handed to the `Map` constructor has 75 entries, fifteen per
authored row, while the constructor is told a 14 by 5 grid, which is 70 cells;
so cell (col 1, row 1) of the grid, entry `1 * LEVEL1_WIDTH + 1`, holds `0`,
the first value of the second authored row, whose second value is `2`. -/
theorem level_data_exceeds_grid :
    LEVEL_1_DATA.length = 75 ∧
    initialise.g_game_state.map.level_data = LEVEL_1_DATA ∧
    initialise.g_game_state.map.width * initialise.g_game_state.map.height = 70 ∧
    LEVEL_1_DATA.length ≠ LEVEL1_WIDTH * LEVEL1_HEIGHT ∧
    (∀ row ∈ LEVEL_1_ROWS, row.length = 15) ∧
    LEVEL_1_DATA[1 * LEVEL1_WIDTH + 1]? = some 0 ∧
    (LEVEL_1_ROWS[1]?.bind fun row => row[1]?) = some 2 := by
  refine ⟨rfl, rfl, rfl, by decide, by decide, rfl, rfl⟩

end Project4
